import Mathlib

/-!
Verification of the 1PUX-to-CSV conversion core (src/main.py).

The JSON tree loaded from the export bundle is modelled by `JValue`
(numbers as `Int`; no claim touches floating point).  Python behaviour is
made explicit: truthiness by `truthy`, `dict.get` by `pyGet` (raising on a
non-dict receiver), iteration by `pyIter`, `len` by `pyLen`, `str()` by
`pyStr`, and a raised exception by `Except.error ()`.  Each function of
the source file is translated statement by statement under its own name.
-/

inductive JValue where
  | null : JValue
  | bool : Bool → JValue
  | num : Int → JValue
  | str : String → JValue
  | arr : List JValue → JValue
  | obj : List (String × JValue) → JValue

/-- Python truthiness of a JSON value. -/
def truthy : JValue → Bool
  | .null => false
  | .bool b => b
  | .num n => n != 0
  | .str s => s != ""
  | .arr xs => !xs.isEmpty
  | .obj kvs => !kvs.isEmpty

/-- Lookup of a key in a JSON object body (first binding wins). -/
def objLookup (kvs : List (String × JValue)) (k : String) : Option JValue :=
  (kvs.find? (fun kv => kv.1 == k)).map (fun kv => kv.2)

/-- Python `v.get(k, d)` evaluated on an object, the default otherwise. -/
def objGetD (v : JValue) (k : String) (d : JValue) : JValue :=
  match v with
  | .obj kvs => (objLookup kvs k).getD d
  | _ => d

/-- Python `v.get(k, d)`: raises (AttributeError) when `v` is not a dict. -/
def pyGet (v : JValue) (k : String) (d : JValue) : Except Unit JValue :=
  match v with
  | .obj kvs => .ok ((objLookup kvs k).getD d)
  | _ => .error ()

/-- Python `k in v` for a dict body. -/
def hasKey (kvs : List (String × JValue)) (k : String) : Bool :=
  (objLookup kvs k).isSome

/-- Python iteration: lists yield elements, strings their characters,
dicts their keys; other values raise (TypeError). -/
def pyIter : JValue → Except Unit (List JValue)
  | .arr xs => .ok xs
  | .str s => .ok (s.data.map (fun c => .str (String.singleton c)))
  | .obj kvs => .ok (kvs.map (fun kv => .str kv.1))
  | _ => .error ()

/-- Python `len`: defined on strings, lists and dicts, raises otherwise. -/
def pyLen : JValue → Except Unit Nat
  | .str s => .ok s.length
  | .arr xs => .ok xs.length
  | .obj kvs => .ok kvs.length
  | _ => .error ()

/-- Python `v[0]`: head of a list or first character of a string; raises
on an empty sequence, on a dict (string keys only, so a KeyError) and on
non-subscriptable values. -/
def pyIndex0 : JValue → Except Unit JValue
  | .arr (x :: _) => .ok x
  | .arr [] => .error ()
  | .str s =>
    match s.data with
    | c :: _ => .ok (.str (String.singleton c))
    | [] => .error ()
  | _ => .error ()

/-- Python `v[1:]` followed by iteration: the tail of a list or of a
string (characters); raises on other values. -/
def pySlice1 : JValue → Except Unit (List JValue)
  | .arr xs => .ok (xs.drop 1)
  | .str s => .ok ((s.data.drop 1).map (fun c => .str (String.singleton c)))
  | _ => .error ()

/-- Collect a list of values all of which must be strings; a non-string
member makes `str.join` raise (TypeError). -/
def asStrList : List JValue → Except Unit (List String)
  | [] => .ok []
  | .str s :: rest => (asStrList rest).map (fun ss => s :: ss)
  | _ :: _ => .error ()

/-- Python `sep.join(parts)` on an already materialised list. -/
def joinVals (sep : String) (parts : List JValue) : Except Unit String := do
  let ss ← asStrList parts
  .ok (String.intercalate sep ss)

/-- Python `sep.join(v)` on an arbitrary iterable value. -/
def pyJoin (sep : String) (v : JValue) : Except Unit String := do
  let xs ← pyIter v
  joinVals sep xs

/-- A single-quote character, kept out of string literals. -/
def sQuote : String := String.singleton (Char.ofNat 39)

mutual

/-- Python `str()` of a JSON value (string escaping inside the repr of
containers is not modelled; no claim depends on it). -/
def pyStr : JValue → String
  | .null => "None"
  | .bool b => if b then "True" else "False"
  | .num n => toString n
  | .str s => s
  | .arr xs => "[" ++ pyReprList xs ++ "]"
  | .obj kvs => "\x7b" ++ pyReprKvs kvs ++ "\x7d"

/-- Python `repr()` of a JSON value, as used inside containers. -/
def pyRepr : JValue → String
  | .null => "None"
  | .bool b => if b then "True" else "False"
  | .num n => toString n
  | .str s => sQuote ++ s ++ sQuote
  | .arr xs => "[" ++ pyReprList xs ++ "]"
  | .obj kvs => "\x7b" ++ pyReprKvs kvs ++ "\x7d"

def pyReprList : List JValue → String
  | [] => ""
  | [x] => pyRepr x
  | x :: y :: xs => pyRepr x ++ ", " ++ pyReprList (y :: xs)

def pyReprKvs : List (String × JValue) → String
  | [] => ""
  | [(k, v)] => sQuote ++ k ++ sQuote ++ ": " ++ pyRepr v
  | (k, v) :: kv :: kvs => sQuote ++ k ++ sQuote ++ ": " ++ pyRepr v ++ ", " ++ pyReprKvs (kv :: kvs)

end

/-- Characters removed by Python `str.strip()` (the ASCII whitespace set). -/
def isPyWs (c : Char) : Bool :=
  c == ' ' || c == '\t' || c == '\n' || c == '\r' || c == Char.ofNat 11 || c == Char.ofNat 12

/-- Python `s.strip()`. -/
def stripStr (s : String) : String :=
  String.mk (((s.data.dropWhile isPyWs).reverse.dropWhile isPyWs).reverse)

/-- Python `v == s` for a string literal `s`: true exactly when `v` is
that string (no other JSON value compares equal to a string). -/
def isStrEq (v : JValue) (s : String) : Bool :=
  match v with
  | .str t => t == s
  | _ => false

/-- Python `s.startswith(pre)`, via character lists so that it reduces. -/
def pyStartsWith (s pre : String) : Bool :=
  pre.data.isPrefixOf s.data

/-- Python `v or ""`, used to default the extracted columns. -/
def pyOrEmpty (v : JValue) : JValue :=
  if truthy v then v else .str ""

/-! ## The source functions of src/main.py -/

/-- Loop body of `extract_username`: first field whose designation equals
the string `username` yields its `value` (default the empty string). -/
def extract_username_loop : List JValue → Except Unit JValue
  | [] => .ok .null
  | f :: rest => do
    let d ← pyGet f "designation" .null
    if isStrEq d "username" then pyGet f "value" (.str "")
    else extract_username_loop rest

/-- Function `extract_username(login_fields)` of src/main.py. -/
def extract_username (login_fields : JValue) : Except Unit JValue := do
  let fs ← pyIter login_fields
  extract_username_loop fs

/-- Loop body of `extract_password`. -/
def extract_password_loop : List JValue → Except Unit JValue
  | [] => .ok .null
  | f :: rest => do
    let d ← pyGet f "designation" .null
    if isStrEq d "password" then pyGet f "value" (.str "")
    else extract_password_loop rest

/-- Function `extract_password(login_fields)` of src/main.py. -/
def extract_password (login_fields : JValue) : Except Unit JValue := do
  let fs ← pyIter login_fields
  extract_password_loop fs

/-- Inner field loop of `extract_otp_auth`: `some v` models the early
`return v` escaping both loops, `none` falls through to later sections.
A non-string `id` raises at `field_id.startswith`. -/
def otpFieldLoop : List JValue → Except Unit (Option JValue)
  | [] => .ok none
  | f :: rest => do
    let fid ← pyGet f "id" (.str "")
    match fid with
    | .str s =>
      if pyStartsWith s "TOTP_" then do
        let value ← pyGet f "value" (.obj [])
        match value with
        | .obj kvs =>
          let totp := (objLookup kvs "totp").getD (.str "")
          if truthy totp then .ok (some totp) else otpFieldLoop rest
        | .str _ => .ok (some value)
        | _ => otpFieldLoop rest
      else otpFieldLoop rest
    | _ => .error ()

/-- Outer section loop of `extract_otp_auth`. -/
def otpSectionLoop : List JValue → Except Unit JValue
  | [] => .ok .null
  | s :: rest => do
    let fieldsV ← pyGet s "fields" (.arr [])
    let fields ← pyIter fieldsV
    match (← otpFieldLoop fields) with
    | some v => .ok v
    | none => otpSectionLoop rest

/-- Function `extract_otp_auth(sections)` of src/main.py. -/
def extract_otp_auth (sections : JValue) : Except Unit JValue := do
  let ss ← pyIter sections
  otpSectionLoop ss

/-- Function `extract_url(overview)` of src/main.py. -/
def extract_url (overview : JValue) : Except Unit JValue := do
  let url ← pyGet overview "url" .null
  if truthy url then .ok url
  else do
    let urls ← pyGet overview "urls" (.arr [])
    if truthy urls then do
      let n ← pyLen urls
      if n > 0 then do
        let u0 ← pyIndex0 urls
        pyGet u0 "url" (.str "")
      else .ok .null
    else .ok .null

/-- The `address` branch of `format_field_value`, on a dict-shaped
address.  The two `', '.join` calls raise when handed a non-string. -/
def formatAddress (akvs : List (String × JValue)) : Except Unit JValue := do
  let street := (objLookup akvs "street").getD .null
  let parts1 : List JValue := if truthy street then [street] else []
  let city := (objLookup akvs "city").getD (.str "")
  let state := (objLookup akvs "state").getD (.str "")
  let zipCode := (objLookup akvs "zip").getD (.str "")
  let country := (objLookup akvs "country").getD (.str "")
  let cityParts := [city, state, zipCode].filter truthy
  let parts2 ←
    if cityParts.isEmpty then pure parts1
    else do
      let cp ← joinVals ", " cityParts
      pure (parts1 ++ [JValue.str cp])
  let parts3 := if truthy country then parts2 ++ [country] else parts2
  if parts3.isEmpty then .ok .null
  else do
    let s ← joinVals ", " parts3
    .ok (.str s)

/-- The trailing key-probing loop of `format_field_value`: a present key
with a truthy value returns `str()` of it, otherwise the next key of the
priority list is consulted. -/
def genericKeyLoop (kvs : List (String × JValue)) : List String → Except Unit JValue
  | [] => .ok .null
  | k :: rest =>
    match objLookup kvs k with
    | some val => if truthy val then .ok (.str (pyStr val)) else genericKeyLoop kvs rest
    | none => genericKeyLoop kvs rest

/-- Function `format_field_value(field_value)` of src/main.py. -/
def format_field_value (field_value : JValue) : Except Unit JValue :=
  if !truthy field_value then .ok .null
  else match field_value with
  | .str _ => .ok field_value
  | .obj kvs =>
    if hasKey kvs "concealed" then .ok ((objLookup kvs "concealed").getD .null)
    else if hasKey kvs "string" then .ok ((objLookup kvs "string").getD .null)
    else if hasKey kvs "ssoLogin" then
      match (objLookup kvs "ssoLogin").getD .null with
      | .obj skvs =>
        let provider := (objLookup skvs "provider").getD (.str "")
        .ok (if truthy provider then provider else .null)
      | _ => .ok .null
    else if hasKey kvs "menu" then
      let menuValue := (objLookup kvs "menu").getD .null
      .ok (if truthy menuValue then menuValue else .null)
    else if hasKey kvs "address" then
      match (objLookup kvs "address").getD .null with
      | .obj akvs => formatAddress akvs
      | _ => genericKeyLoop kvs ["value", "text", "name", "label"]
    else genericKeyLoop kvs ["value", "text", "name", "label"]
  | _ => .ok (.str (pyStr field_value))

/-- Bullet rendering shared by the notes blocks:
`"\n".join(f"  - {f}" for f in xs)`. -/
def bullets (xs : List JValue) : String :=
  String.intercalate "\n" (xs.map (fun f => "  - " ++ pyStr f))

/-- The `other_fields` accumulation of `build_notes` (block 3). -/
def otherFieldsLoop : List JValue → Except Unit (List JValue)
  | [] => .ok []
  | f :: rest => do
    let designation ← pyGet f "designation" (.str "")
    let here ←
      if !(isStrEq designation "username" || isStrEq designation "password") then do
        let fieldName ← pyGet f "name" (.str "")
        let fieldValue ← pyGet f "value" (.str "")
        if truthy fieldValue then
          if truthy fieldName then
            pure [JValue.str (pyStr fieldName ++ ": " ++ pyStr fieldValue)]
          else pure [fieldValue]
        else pure []
      else pure []
    let restAcc ← otherFieldsLoop rest
    .ok (here ++ restAcc)

/-- The list `other_fields` built from the raw `loginFields` value. -/
def otherFieldsOf (login_fields : JValue) : Except Unit (List JValue) := do
  let fs ← pyIter login_fields
  otherFieldsLoop fs

/-- Field loop of the `section_fields` accumulation (block 4); fields
whose id starts with `TOTP_` are skipped before any rendering. -/
def sectionFieldLoop (sectionTitle : JValue) : List JValue → Except Unit (List JValue)
  | [] => .ok []
  | f :: rest => do
    let fid ← pyGet f "id" (.str "")
    match fid with
    | .str s =>
      if pyStartsWith s "TOTP_" then sectionFieldLoop sectionTitle rest
      else do
        let fieldTitle ← pyGet f "title" (.str "")
        let fieldValue ← pyGet f "value" (.str "")
        let formatted ← format_field_value fieldValue
        let here :=
          if truthy formatted then
            if truthy sectionTitle && truthy fieldTitle then
              [JValue.str (pyStr sectionTitle ++ " - " ++ pyStr fieldTitle ++ ": " ++ pyStr formatted)]
            else if truthy fieldTitle then
              [JValue.str (pyStr fieldTitle ++ ": " ++ pyStr formatted)]
            else [formatted]
          else []
        let restAcc ← sectionFieldLoop sectionTitle rest
        .ok (here ++ restAcc)
    | _ => .error ()

/-- Section loop of the `section_fields` accumulation. -/
def sectionLoop : List JValue → Except Unit (List JValue)
  | [] => .ok []
  | s :: rest => do
    let sectionTitle ← pyGet s "title" (.str "")
    let fieldsV ← pyGet s "fields" (.arr [])
    let fields ← pyIter fieldsV
    let here ← sectionFieldLoop sectionTitle fields
    let restAcc ← sectionLoop rest
    .ok (here ++ restAcc)

/-- The list `section_fields` built from the raw `sections` value. -/
def sectionFieldsOf (sections : JValue) : Except Unit (List JValue) := do
  let ss ← pyIter sections
  sectionLoop ss

/-- The `other_urls` accumulation of `build_notes` (block 5), over the
entries after the first. -/
def otherUrlsLoop : List JValue → Except Unit (List JValue)
  | [] => .ok []
  | u :: rest => do
    let urlStr ← pyGet u "url" (.str "")
    let label ← pyGet u "label" (.str "")
    let here :=
      if truthy urlStr then
        if truthy label then [JValue.str (pyStr label ++ ": " ++ pyStr urlStr)]
        else [urlStr]
      else []
    let restAcc ← otherUrlsLoop rest
    .ok (here ++ restAcc)

/-- The list `other_urls` built from the raw `urls` value (`urls[1:]` first). -/
def otherUrlsOf (urls : JValue) : Except Unit (List JValue) := do
  let us ← pySlice1 urls
  otherUrlsLoop us

/-- Block 1 of `build_notes`: the stripped free-text notes, appended when
the raw `notesPlain` is truthy (`strip` raises on a non-string). -/
def notesBlock1 (notesPlain : JValue) : Except Unit (List String) :=
  if truthy notesPlain then
    match notesPlain with
    | .str s => pure [stripStr s]
    | _ => .error ()
  else pure []

/-- Block 2 of `build_notes`: the tag line, appended when `tags` is truthy. -/
def notesBlock2 (tags : JValue) (parts : List String) : Except Unit (List String) :=
  if truthy tags then do
    let tagsStr ← pyJoin ", " tags
    pure (parts ++ ["標籤: " ++ tagsStr])
  else pure parts

/-- Block 5 of `build_notes`: the secondary URLs, consulted when
`len(urls) > 1`. -/
def notesBlock5 (urls : JValue) (urlsLen : Nat) (parts : List String) :
    Except Unit (List String) :=
  if urlsLen > 1 then do
    let otherUrls ← otherUrlsOf urls
    pure (if !otherUrls.isEmpty then parts ++ ["其他網址:\n" ++ bullets otherUrls] else parts)
  else pure parts

/-- Block 6 of `build_notes`: the password-history count line, appended
when the history value is truthy (`len` raises when it is not sized). -/
def notesBlock6 (passwordHistory : JValue) (parts : List String) :
    Except Unit (List String) :=
  if truthy passwordHistory then do
    let n ← pyLen passwordHistory
    pure (parts ++ ["密碼歷史記錄: " ++ toString n ++ " 筆"])
  else pure parts

/-- Function `build_notes(details, overview)` of src/main.py: six conditional
appends to `notes_parts`, then one `"\n---\n".join`. -/
def build_notes (details overview : JValue) : Except Unit String := do
  let notesPlain ← pyGet details "notesPlain" (.str "")
  let parts1 ← notesBlock1 notesPlain
  let tags ← pyGet overview "tags" (.arr [])
  let parts2 ← notesBlock2 tags parts1
  let loginFields ← pyGet details "loginFields" (.arr [])
  let otherFields ← otherFieldsOf loginFields
  let parts3 :=
    if !otherFields.isEmpty then parts2 ++ ["其他欄位:\n" ++ bullets otherFields]
    else parts2
  let sections ← pyGet details "sections" (.arr [])
  let sectionFields ← sectionFieldsOf sections
  let parts4 :=
    if !sectionFields.isEmpty then parts3 ++ ["額外資訊:\n" ++ bullets sectionFields]
    else parts3
  let urls ← pyGet overview "urls" (.arr [])
  let urlsLen ← pyLen urls
  let parts5 ← notesBlock5 urls urlsLen parts4
  let passwordHistory ← pyGet details "passwordHistory" (.arr [])
  let parts6 ← notesBlock6 passwordHistory parts5
  .ok (String.intercalate "\n---\n" parts6)

/-- One output record: the six CSV columns.  `notes` is always a string
(the join result); the other columns carry whatever value the source
produced (`or ""` applied where the source applies it). -/
structure CsvRow where
  title : JValue
  url : JValue
  username : JValue
  password : JValue
  notes : String
  otpauth : JValue

/-- Function `convert_item_to_csv_row(item)` of src/main.py. -/
def convert_item_to_csv_row (item : JValue) : Except Unit CsvRow := do
  let overview ← pyGet item "overview" (.obj [])
  let details ← pyGet item "details" (.obj [])
  let title ← pyGet overview "title" (.str "")
  let urlR ← extract_url overview
  let loginFields ← pyGet details "loginFields" (.arr [])
  let usernameR ← extract_username loginFields
  let passwordR ← extract_password loginFields
  let sections ← pyGet details "sections" (.arr [])
  let otpR ← extract_otp_auth sections
  let notes ← build_notes details overview
  .ok { title := title, url := pyOrEmpty urlR, username := pyOrEmpty usernameR,
        password := pyOrEmpty passwordR, notes := notes, otpauth := pyOrEmpty otpR }

/-- Item loop of `convert_1pux_to_csv`: the archived filter runs before
the conversion of the item. -/
def itemLoop (includeArchived : Bool) : List JValue → Except Unit (List CsvRow)
  | [] => .ok []
  | item :: rest => do
    let state ← pyGet item "state" (.str "active")
    if !includeArchived && isStrEq state "archived" then itemLoop includeArchived rest
    else do
      let row ← convert_item_to_csv_row item
      let restRows ← itemLoop includeArchived rest
      .ok (row :: restRows)

/-- Vault loop of `convert_1pux_to_csv`. -/
def vaultLoop (includeArchived : Bool) : List JValue → Except Unit (List CsvRow)
  | [] => .ok []
  | v :: rest => do
    let itemsV ← pyGet v "items" (.arr [])
    let items ← pyIter itemsV
    let here ← itemLoop includeArchived items
    let restRows ← vaultLoop includeArchived rest
    .ok (here ++ restRows)

/-- Account loop of `convert_1pux_to_csv`. -/
def accountLoop (includeArchived : Bool) : List JValue → Except Unit (List CsvRow)
  | [] => .ok []
  | a :: rest => do
    let vaultsV ← pyGet a "vaults" (.arr [])
    let vaults ← pyIter vaultsV
    let here ← vaultLoop includeArchived vaults
    let restRows ← accountLoop includeArchived rest
    .ok (here ++ restRows)

/-- The row-building core of `convert_1pux_to_csv(data, include_archived)`
(archive extraction and CSV serialisation are I/O wrappers outside the
scope of the claims). -/
def convert_1pux_to_csv (data : JValue) (includeArchived : Bool) : Except Unit (List CsvRow) := do
  let accountsV ← pyGet data "accounts" (.arr [])
  let accounts ← pyIter accountsV
  accountLoop includeArchived accounts

/-! ## Claim-facing definitions -/

/-- A one-item document wrapping `item` in one vault of one account. -/
def mkDoc (item : JValue) : JValue :=
  .obj [("accounts", .arr [.obj [("vaults", .arr [.obj [("items", .arr [item])]])]])]

/-- Encoding of a typed section field (id, value) as a JSON object. -/
def encodeField (f : String × JValue) : JValue :=
  .obj [("id", .str f.1), ("value", f.2)]

/-- Encoding of a typed section (its field list) as a JSON object. -/
def encodeSection (fs : List (String × JValue)) : JValue :=
  .obj [("fields", .arr (fs.map encodeField))]

/-- Encoding of a typed section list. -/
def encodeSections (ss : List (List (String × JValue))) : JValue :=
  .arr (ss.map encodeSection)

/-- The OTP candidate a single field contributes, written after the
amended claim: a `TOTP_`-prefixed id with a dict value contributes its
`totp` entry when that is truthy; a plain-string value is contributed as
is, even when empty; anything else contributes nothing. -/
def otpSpecField (f : String × JValue) : Option JValue :=
  if pyStartsWith f.1 "TOTP_" then
    match f.2 with
    | .obj kvs =>
      let t := (objLookup kvs "totp").getD (.str "")
      if truthy t then some t else none
    | .str s => some (.str s)
    | _ => none
  else none

/-- The amended OTP scan: first candidate over the fields of all
sections, flattened in source order. -/
def otpSpec (ss : List (List (String × JValue))) : Option JValue :=
  ss.flatten.findSome? otpSpecField

/-- The postal-address composition exactly as the claim words it:
street (if non-empty) as its own segment, then city-state-zip joined
with a comma omitting empty members, then the country; absent when no
segment is non-empty. -/
def addressSpec (street city state zipCode country : String) : JValue :=
  let cityPart := [city, state, zipCode].filter (fun s => s != "")
  let segs := (if street != "" then [street] else [])
    ++ (if cityPart.isEmpty then [] else [String.intercalate ", " cityPart])
    ++ (if country != "" then [country] else [])
  if segs.isEmpty then .null else .str (String.intercalate ", " segs)

/-- An address object holding the five textual sub-fields. -/
def addressVal (street city state zipCode country : String) : JValue :=
  .obj [("address", .obj [("street", .str street), ("city", .str city),
    ("state", .str state), ("zip", .str zipCode), ("country", .str country)])]

/-- The amended fallback rule for unrecognized shapes: the first key of
the priority list that is present with a truthy value wins, coerced with
`str()`; absent when no key qualifies. -/
def genericSpec (kvs : List (String × JValue)) : JValue :=
  match ["value", "text", "name", "label"].findSome?
      (fun k => (objLookup kvs k).filter truthy) with
  | some v => .str (pyStr v)
  | none => .null

/-- Is this section field recognized as an OTP holder (a dict whose id
entry is a string starting with `TOTP_`)? -/
def isTotpField (f : JValue) : Bool :=
  match f with
  | .obj kvs =>
    match (objLookup kvs "id").getD (.str "") with
    | .str s => pyStartsWith s "TOTP_"
    | _ => false
  | _ => false

/-- Remove the `TOTP_`-identified fields from a dict-shaped `fields`
list, leaving any other shape untouched. -/
def stripTotpInFields (v : JValue) : JValue :=
  match v with
  | .arr fs => .arr (fs.filter (fun f => !isTotpField f))
  | _ => v

/-- Binding-level rewrite used by `stripTotpInSection`. -/
def stripKv (kv : String × JValue) : String × JValue :=
  if kv.1 == "fields" then (kv.1, stripTotpInFields kv.2) else kv

/-- Remove the `TOTP_`-identified fields from one section, leaving any
other shape untouched. -/
def stripTotpInSection (s : JValue) : JValue :=
  match s with
  | .obj kvs => .obj (kvs.map stripKv)
  | _ => s

/-- Remove the `TOTP_`-identified fields from every section of a
sections value. -/
def stripTotpFields (sections : JValue) : JValue :=
  match sections with
  | .arr ss => .arr (ss.map stripTotpInSection)
  | _ => sections

/-- Binding-level rewrite used by `withKey`. -/
def setKv (K : String) (newV : JValue) (kv : String × JValue) : String × JValue :=
  if kv.1 == K then (kv.1, newV) else kv

/-- Replace the value carried by a key of an object, leaving any other
shape untouched (keys other than `k` keep their bindings). -/
def withKey (v : JValue) (k : String) (newV : JValue) : JValue :=
  match v with
  | .obj kvs => .obj (kvs.map (setKv k newV))
  | _ => v

/-- Item loop of the traversal, collecting the included items themselves
(the archived filter applied, no conversion). -/
def includedItemLoop (includeArchived : Bool) : List JValue → Except Unit (List JValue)
  | [] => .ok []
  | item :: rest => do
    let state ← pyGet item "state" (.str "active")
    if !includeArchived && isStrEq state "archived" then includedItemLoop includeArchived rest
    else do
      let restItems ← includedItemLoop includeArchived rest
      .ok (item :: restItems)

/-- Vault loop of the item-collecting traversal. -/
def includedVaultLoop (includeArchived : Bool) : List JValue → Except Unit (List JValue)
  | [] => .ok []
  | v :: rest => do
    let itemsV ← pyGet v "items" (.arr [])
    let items ← pyIter itemsV
    let here ← includedItemLoop includeArchived items
    let restItems ← includedVaultLoop includeArchived rest
    .ok (here ++ restItems)

/-- Account loop of the item-collecting traversal. -/
def includedAccountLoop (includeArchived : Bool) : List JValue → Except Unit (List JValue)
  | [] => .ok []
  | a :: rest => do
    let vaultsV ← pyGet a "vaults" (.arr [])
    let vaults ← pyIter vaultsV
    let here ← includedVaultLoop includeArchived vaults
    let restItems ← includedAccountLoop includeArchived rest
    .ok (here ++ restItems)

/-- The items the conversion includes, in source traversal order. -/
def includedItems (data : JValue) (includeArchived : Bool) : Except Unit (List JValue) := do
  let accountsV ← pyGet data "accounts" (.arr [])
  let accounts ← pyIter accountsV
  includedAccountLoop includeArchived accounts

/-! ## A structural well-typedness predicate for items -/

/-- Is the value a JSON object? -/
def JValue.isObj : JValue → Bool
  | .obj _ => true
  | _ => false

/-- Is the value a JSON string? -/
def JValue.isStr : JValue → Bool
  | .str _ => true
  | _ => false

/-- Is the value a JSON array? -/
def JValue.isArr : JValue → Bool
  | .arr _ => true
  | _ => false

/-- A value that, when truthy, is a string. -/
def strIfTruthy (v : JValue) : Bool := !truthy v || v.isStr

/-- The five address sub-fields the formatter may join must be strings
when truthy, or a join raises. -/
def addrOkFields (akvs : List (String × JValue)) : Bool :=
  strIfTruthy ((objLookup akvs "street").getD .null)
    && strIfTruthy ((objLookup akvs "city").getD (.str ""))
    && strIfTruthy ((objLookup akvs "state").getD (.str ""))
    && strIfTruthy ((objLookup akvs "zip").getD (.str ""))
    && strIfTruthy ((objLookup akvs "country").getD (.str ""))

/-- A field value the formatter handles without raising. -/
def fmtOk (v : JValue) : Bool :=
  match v with
  | .obj kvs =>
    if hasKey kvs "concealed" || hasKey kvs "string" || hasKey kvs "ssoLogin"
        || hasKey kvs "menu" then true
    else
      match (objLookup kvs "address").getD .null with
      | .obj akvs => addrOkFields akvs
      | _ => true
  | _ => true

/-- A login field the loops accept: a JSON object. -/
def loginFieldsOk (v : JValue) : Bool :=
  match v with
  | .arr fs => fs.all JValue.isObj
  | _ => false

/-- A tags value the join accepts: falsy, or a list of strings. -/
def tagsOk (v : JValue) : Bool :=
  !truthy v ||
    (match v with
     | .arr ts => ts.all JValue.isStr
     | _ => false)

/-- A section field the loops accept: an object whose id entry is a
string and whose value the formatter handles without raising. -/
def sectionFieldOk (f : JValue) : Bool :=
  match f with
  | .obj kvs =>
    ((objLookup kvs "id").getD (.str "")).isStr
      && fmtOk ((objLookup kvs "value").getD (.str ""))
  | _ => false

/-- A section the loops accept. -/
def sectionOk (s : JValue) : Bool :=
  match s with
  | .obj kvs =>
    match (objLookup kvs "fields").getD (.arr []) with
    | .arr fs => fs.all sectionFieldOk
    | _ => false
  | _ => false

/-- A sections value the loops accept. -/
def sectionsOk (v : JValue) : Bool :=
  match v with
  | .arr ss => ss.all sectionOk
  | _ => false

/-- A urls value the selector and the notes block accept: a list of
objects. -/
def urlsOk (v : JValue) : Bool :=
  match v with
  | .arr us => us.all JValue.isObj
  | _ => false

/-- A password history value `len` accepts whenever it is consulted. -/
def historyOk (v : JValue) : Bool := !truthy v || v.isArr

/-- The details sub-tree carries the expected types. -/
def detailsOk (d : JValue) : Bool :=
  d.isObj && strIfTruthy (objGetD d "notesPlain" (.str ""))
    && loginFieldsOk (objGetD d "loginFields" (.arr []))
    && sectionsOk (objGetD d "sections" (.arr []))
    && historyOk (objGetD d "passwordHistory" (.arr []))

/-- The overview sub-tree carries the expected types. -/
def overviewOk (o : JValue) : Bool :=
  o.isObj && tagsOk (objGetD o "tags" (.arr []))
    && urlsOk (objGetD o "urls" (.arr []))

/-- An item whose fields carry the types the code expects. -/
def wellTyped (item : JValue) : Bool :=
  item.isObj && overviewOk (objGetD item "overview" (.obj []))
    && detailsOk (objGetD item "details" (.obj []))

/-! ## Basic lemmas about the embedded monadic combinators -/

@[simp]
theorem exOkBind {α β : Type} (a : α) (f : α → Except Unit β) :
    (Except.ok a >>= f : Except Unit β) = f a := rfl

@[simp]
theorem exErrBind {α β : Type} (f : α → Except Unit β) :
    ((Except.error () : Except Unit α) >>= f) = .error () := rfl

@[simp]
theorem exPureOk {α : Type} (a : α) : (pure a : Except Unit α) = .ok a := rfl

@[simp]
theorem exMapOk {α β : Type} (f : α → β) (a : α) :
    (Except.ok a : Except Unit α).map f = .ok (f a) := rfl

@[simp]
theorem exMapErr {α β : Type} (f : α → β) :
    (Except.error () : Except Unit α).map f = .error () := rfl

/-- Two consecutive unit-error effects commute: the only error value is
`()`, so the order in which two computations fail is unobservable. -/
theorem exBindComm {α β γ : Type} (A : Except Unit α) (B : Except Unit β)
    (f : α → β → Except Unit γ) :
    (A >>= fun a => B >>= fun b => f a b) = (B >>= fun b => A >>= fun a => f a b) := by
  cases A with
  | error e =>
    cases e
    cases B with
    | error e2 => cases e2; rfl
    | ok b => rfl
  | ok a =>
    cases B with
    | error e2 => cases e2; rfl
    | ok b => rfl

theorem pyGet_isObj (v : JValue) (hv : v.isObj = true) (k : String) (d : JValue) :
    pyGet v k d = .ok (objGetD v k d) := by
  cases v <;> simp [JValue.isObj] at hv ⊢ <;> rfl

/-- Monadic map over `Except Unit`, by structural recursion. -/
def exMapM {α β : Type} (f : α → Except Unit β) : List α → Except Unit (List β)
  | [] => .ok []
  | x :: xs => do
    let y ← f x
    let ys ← exMapM f xs
    .ok (y :: ys)

theorem exMapM_append {α β : Type} (f : α → Except Unit β) (xs ys : List α) :
    exMapM f (xs ++ ys) = (do
      let as ← exMapM f xs
      let bs ← exMapM f ys
      .ok (as ++ bs)) := by
  induction xs with
  | nil =>
    simp only [List.nil_append, exMapM]
    cases h : exMapM f ys <;> rfl
  | cons x xs ih =>
    cases hx : f x with
    | error e => cases e; simp [exMapM, hx]
    | ok y =>
      cases hxs : exMapM f xs with
      | error e => cases e; simp [exMapM, hx, hxs, ih]
      | ok as =>
        cases hys : exMapM f ys with
        | error e => cases e; simp [exMapM, hx, hxs, hys, ih]
        | ok bs => simp [exMapM, hx, hxs, hys, ih]

theorem exMapM_length {α β : Type} (f : α → Except Unit β) :
    ∀ (xs : List α) (ys : List β), exMapM f xs = .ok ys → ys.length = xs.length := by
  intro xs
  induction xs with
  | nil => intro ys h; simp [exMapM] at h; simp [← h]
  | cons x xs ih =>
    intro ys h
    simp only [exMapM] at h
    cases hx : f x with
    | error e => cases e; rw [hx] at h; simp at h
    | ok y =>
      rw [hx] at h
      simp only [exOkBind] at h
      cases hxs : exMapM f xs with
      | error e => cases e; rw [hxs] at h; simp at h
      | ok zs =>
        rw [hxs] at h
        simp only [exOkBind] at h
        cases h
        simp [ih zs hxs]

/-! ## The conversion loop as a map over the included items -/

theorem itemLoop_eq (b : Bool) (xs : List JValue) :
    itemLoop b xs = (do
      let items ← includedItemLoop b xs
      exMapM convert_item_to_csv_row items) := by
  induction xs with
  | nil => rfl
  | cons item rest ih =>
    cases hs : pyGet item "state" (.str "active") with
    | error e => cases e; simp [itemLoop, includedItemLoop, hs]
    | ok s =>
      cases hc : convert_item_to_csv_row item with
      | error e =>
        cases e
        cases hi : includedItemLoop b rest with
        | error e2 =>
          cases e2
          cases b <;> cases hE : isStrEq s "archived" <;>
            simp [itemLoop, includedItemLoop, hs, hc, hi, hE, ih, exMapM]
        | ok is =>
          cases b <;> cases hE : isStrEq s "archived" <;>
            simp [itemLoop, includedItemLoop, hs, hc, hi, hE, ih, exMapM]
      | ok row =>
        cases hi : includedItemLoop b rest with
        | error e2 =>
          cases e2
          cases b <;> cases hE : isStrEq s "archived" <;>
            simp [itemLoop, includedItemLoop, hs, hc, hi, hE, ih, exMapM]
        | ok is =>
          cases b <;> cases hE : isStrEq s "archived" <;>
            simp [itemLoop, includedItemLoop, hs, hc, hi, hE, ih, exMapM]

theorem vaultLoop_eq (b : Bool) (vs : List JValue) :
    vaultLoop b vs = (do
      let items ← includedVaultLoop b vs
      exMapM convert_item_to_csv_row items) := by
  induction vs with
  | nil => rfl
  | cons v rest ih =>
    cases hg : pyGet v "items" (.arr []) with
    | error e => cases e; simp [vaultLoop, includedVaultLoop, hg]
    | ok itemsV =>
      cases hit : pyIter itemsV with
      | error e => cases e; simp [vaultLoop, includedVaultLoop, hg, hit]
      | ok items =>
        cases hi : includedItemLoop b items with
        | error e =>
          cases e
          cases hr : includedVaultLoop b rest with
          | error e2 =>
            cases e2
            simp [vaultLoop, includedVaultLoop, hg, hit, hi, hr, ih, itemLoop_eq]
          | ok ris => simp [vaultLoop, includedVaultLoop, hg, hit, hi, hr, ih, itemLoop_eq]
        | ok his =>
          cases hm : exMapM convert_item_to_csv_row his with
          | error e =>
            cases e
            cases hr : includedVaultLoop b rest with
            | error e2 =>
              cases e2
              simp [vaultLoop, includedVaultLoop, hg, hit, hi, hr, hm, ih, itemLoop_eq,
                exMapM_append]
            | ok ris =>
              simp [vaultLoop, includedVaultLoop, hg, hit, hi, hr, hm, ih, itemLoop_eq,
                exMapM_append]
          | ok hrows =>
            cases hr : includedVaultLoop b rest with
            | error e2 =>
              cases e2
              simp [vaultLoop, includedVaultLoop, hg, hit, hi, hr, hm, ih, itemLoop_eq,
                exMapM_append]
            | ok ris =>
              cases hm2 : exMapM convert_item_to_csv_row ris with
              | error e3 =>
                cases e3
                simp [vaultLoop, includedVaultLoop, hg, hit, hi, hr, hm, hm2, ih,
                  itemLoop_eq, exMapM_append]
              | ok rrows =>
                simp [vaultLoop, includedVaultLoop, hg, hit, hi, hr, hm, hm2, ih,
                  itemLoop_eq, exMapM_append]

theorem accountLoop_eq (b : Bool) (as : List JValue) :
    accountLoop b as = (do
      let items ← includedAccountLoop b as
      exMapM convert_item_to_csv_row items) := by
  induction as with
  | nil => rfl
  | cons a rest ih =>
    cases hg : pyGet a "vaults" (.arr []) with
    | error e => cases e; simp [accountLoop, includedAccountLoop, hg]
    | ok vaultsV =>
      cases hit : pyIter vaultsV with
      | error e => cases e; simp [accountLoop, includedAccountLoop, hg, hit]
      | ok vaults =>
        cases hi : includedVaultLoop b vaults with
        | error e =>
          cases e
          cases hr : includedAccountLoop b rest with
          | error e2 =>
            cases e2
            simp [accountLoop, includedAccountLoop, hg, hit, hi, hr, ih, vaultLoop_eq]
          | ok ris => simp [accountLoop, includedAccountLoop, hg, hit, hi, hr, ih, vaultLoop_eq]
        | ok his =>
          cases hm : exMapM convert_item_to_csv_row his with
          | error e =>
            cases e
            cases hr : includedAccountLoop b rest with
            | error e2 =>
              cases e2
              simp [accountLoop, includedAccountLoop, hg, hit, hi, hr, hm, ih, vaultLoop_eq,
                exMapM_append]
            | ok ris =>
              simp [accountLoop, includedAccountLoop, hg, hit, hi, hr, hm, ih, vaultLoop_eq,
                exMapM_append]
          | ok hrows =>
            cases hr : includedAccountLoop b rest with
            | error e2 =>
              cases e2
              simp [accountLoop, includedAccountLoop, hg, hit, hi, hr, hm, ih, vaultLoop_eq,
                exMapM_append]
            | ok ris =>
              cases hm2 : exMapM convert_item_to_csv_row ris with
              | error e3 =>
                cases e3
                simp [accountLoop, includedAccountLoop, hg, hit, hi, hr, hm, hm2, ih,
                  vaultLoop_eq, exMapM_append]
              | ok rrows =>
                simp [accountLoop, includedAccountLoop, hg, hit, hi, hr, hm, hm2, ih,
                  vaultLoop_eq, exMapM_append]

theorem convert_eq_includedItems (data : JValue) (b : Bool) :
    convert_1pux_to_csv data b = (do
      let items ← includedItems data b
      exMapM convert_item_to_csv_row items) := by
  cases hg : pyGet data "accounts" (.arr []) with
  | error e => cases e; simp [convert_1pux_to_csv, includedItems, hg]
  | ok accountsV =>
    cases hit : pyIter accountsV with
    | error e => cases e; simp [convert_1pux_to_csv, includedItems, hg, hit]
    | ok accounts =>
      simp [convert_1pux_to_csv, includedItems, hg, hit, accountLoop_eq]

/-! ## Counting the included items -/

theorem includedItemLoop_le (b : Bool) :
    ∀ (xs is : List JValue), includedItemLoop b xs = .ok is →
      includedItemLoop true xs = .ok xs ∧ is.length ≤ xs.length := by
  intro xs
  induction xs with
  | nil =>
    intro is h
    simp [includedItemLoop] at h
    simp [includedItemLoop, ← h]
  | cons item rest ih =>
    intro is h
    cases hs : pyGet item "state" (.str "active") with
    | error e => cases e; rw [includedItemLoop, hs] at h; simp at h
    | ok s =>
      rw [includedItemLoop, hs] at h
      simp only [exOkBind] at h
      by_cases hb : (!b && isStrEq s "archived") = true
      · rw [if_pos hb] at h
        obtain ⟨h1, h2⟩ := ih is h
        refine ⟨?_, Nat.le_succ_of_le h2⟩
        rw [includedItemLoop, hs]
        simp [h1]
      · rw [if_neg hb] at h
        cases hr : includedItemLoop b rest with
        | error e => cases e; rw [hr] at h; simp at h
        | ok ris =>
          rw [hr] at h
          simp only [exOkBind] at h
          cases h
          obtain ⟨h1, h2⟩ := ih ris hr
          refine ⟨?_, by simpa using Nat.succ_le_succ h2⟩
          rw [includedItemLoop, hs]
          simp [h1]

theorem includedVaultLoop_le (b : Bool) :
    ∀ (vs is : List JValue), includedVaultLoop b vs = .ok is →
      ∃ allItems, includedVaultLoop true vs = .ok allItems ∧ is.length ≤ allItems.length := by
  intro vs
  induction vs with
  | nil =>
    intro is h
    simp [includedVaultLoop] at h
    exact ⟨[], by simp [includedVaultLoop, ← h]⟩
  | cons v rest ih =>
    intro is h
    cases hg : pyGet v "items" (.arr []) with
    | error e => cases e; rw [includedVaultLoop, hg] at h; simp at h
    | ok itemsV =>
      rw [includedVaultLoop, hg] at h
      simp only [exOkBind] at h
      cases hit : pyIter itemsV with
      | error e => cases e; rw [hit] at h; simp at h
      | ok items =>
        rw [hit] at h
        simp only [exOkBind] at h
        cases hi : includedItemLoop b items with
        | error e => cases e; rw [hi] at h; simp at h
        | ok his =>
          rw [hi] at h
          simp only [exOkBind] at h
          cases hr : includedVaultLoop b rest with
          | error e => cases e; rw [hr] at h; simp at h
          | ok ris =>
            rw [hr] at h
            simp only [exOkBind] at h
            cases h
            obtain ⟨h1, h2⟩ := includedItemLoop_le b items his hi
            obtain ⟨rall, hr1, hr2⟩ := ih ris hr
            refine ⟨items ++ rall, ?_, ?_⟩
            · rw [includedVaultLoop, hg]
              simp [hit, h1, hr1]
            · simp only [List.length_append]
              exact Nat.add_le_add h2 hr2

theorem includedAccountLoop_le (b : Bool) :
    ∀ (as is : List JValue), includedAccountLoop b as = .ok is →
      ∃ allItems, includedAccountLoop true as = .ok allItems ∧ is.length ≤ allItems.length := by
  intro as
  induction as with
  | nil =>
    intro is h
    simp [includedAccountLoop] at h
    exact ⟨[], by simp [includedAccountLoop, ← h]⟩
  | cons a rest ih =>
    intro is h
    cases hg : pyGet a "vaults" (.arr []) with
    | error e => cases e; rw [includedAccountLoop, hg] at h; simp at h
    | ok vaultsV =>
      rw [includedAccountLoop, hg] at h
      simp only [exOkBind] at h
      cases hit : pyIter vaultsV with
      | error e => cases e; rw [hit] at h; simp at h
      | ok vaults =>
        rw [hit] at h
        simp only [exOkBind] at h
        cases hi : includedVaultLoop b vaults with
        | error e => cases e; rw [hi] at h; simp at h
        | ok his =>
          rw [hi] at h
          simp only [exOkBind] at h
          cases hr : includedAccountLoop b rest with
          | error e => cases e; rw [hr] at h; simp at h
          | ok ris =>
            rw [hr] at h
            simp only [exOkBind] at h
            cases h
            obtain ⟨vall, h1, h2⟩ := includedVaultLoop_le b vaults his hi
            obtain ⟨rall, hr1, hr2⟩ := ih ris hr
            refine ⟨vall ++ rall, ?_, ?_⟩
            · rw [includedAccountLoop, hg]
              simp [hit, h1, hr1]
            · simp only [List.length_append]
              exact Nat.add_le_add h2 hr2

theorem includedItems_le (data : JValue) (b : Bool) (is : List JValue)
    (h : includedItems data b = .ok is) :
    ∃ allItems, includedItems data true = .ok allItems ∧ is.length ≤ allItems.length := by
  cases hg : pyGet data "accounts" (.arr []) with
  | error e => cases e; rw [includedItems, hg] at h; simp at h
  | ok accountsV =>
    rw [includedItems, hg] at h
    simp only [exOkBind] at h
    cases hit : pyIter accountsV with
    | error e => cases e; rw [hit] at h; simp at h
    | ok accounts =>
      rw [hit] at h
      simp only [exOkBind] at h
      obtain ⟨allItems, h1, h2⟩ := includedAccountLoop_le b accounts is h
      refine ⟨allItems, ?_, h2⟩
      rw [includedItems, hg]
      simp [hit, h1]

/-! ## Reduction of the loop on a one-item document -/

theorem convert_mkDoc (item : JValue) (b : Bool) :
    convert_1pux_to_csv (mkDoc item) b = (do
      let s ← pyGet item "state" (.str "active")
      if !b && isStrEq s "archived" then .ok []
      else do
        let r ← convert_item_to_csv_row item
        .ok [r]) := by
  have outer : convert_1pux_to_csv (mkDoc item) b = itemLoop b [item] := by
    cases hl : itemLoop b [item] with
    | error e =>
      cases e
      simp [convert_1pux_to_csv, mkDoc, accountLoop, vaultLoop, pyGet, objLookup, pyIter, hl]
    | ok here =>
      simp [convert_1pux_to_csv, mkDoc, accountLoop, vaultLoop, pyGet, objLookup, pyIter, hl]
  rw [outer]
  cases hs : pyGet item "state" (.str "active") with
  | error e => cases e; simp [itemLoop, hs]
  | ok s =>
    cases hc : convert_item_to_csv_row item with
    | error e => cases e; simp [itemLoop, hs, hc]
    | ok row => simp [itemLoop, hs, hc]

/-! ## The OTP scan as a first match over flattened fields -/

theorem findSomeAppend {α β : Type} (f : α → Option β) (xs ys : List α) :
    (xs ++ ys).findSome? f =
      match xs.findSome? f with
      | some b => some b
      | none => ys.findSome? f := by
  induction xs with
  | nil => simp
  | cons x xs ih =>
    cases hx : f x <;> simp [List.findSome?_cons, hx, ih]

theorem encodeField_id (fid : String) (v : JValue) :
    pyGet (encodeField (fid, v)) "id" (.str "") = .ok (.str fid) := rfl

theorem encodeField_value (fid : String) (v : JValue) :
    pyGet (encodeField (fid, v)) "value" (.obj []) = .ok v := rfl

theorem otpFieldLoop_encode (fs : List (String × JValue)) :
    otpFieldLoop (fs.map encodeField) = .ok (fs.findSome? otpSpecField) := by
  induction fs with
  | nil => rfl
  | cons f rest ih =>
    obtain ⟨fid, v⟩ := f
    by_cases hp : pyStartsWith fid "TOTP_" = true
    · cases v with
      | obj kvs =>
        by_cases ht : truthy ((objLookup kvs "totp").getD (.str "")) = true
        · simp [otpFieldLoop, encodeField_id, encodeField_value, otpSpecField, hp, ht,
            List.findSome?_cons]
        · simp [otpFieldLoop, encodeField_id, encodeField_value, otpSpecField, hp, ht,
            List.findSome?_cons, ih]
      | str s =>
        simp [otpFieldLoop, encodeField_id, encodeField_value, otpSpecField, hp,
          List.findSome?_cons]
      | null =>
        simp [otpFieldLoop, encodeField_id, encodeField_value, otpSpecField, hp,
          List.findSome?_cons, ih]
      | bool bv =>
        simp [otpFieldLoop, encodeField_id, encodeField_value, otpSpecField, hp,
          List.findSome?_cons, ih]
      | num n =>
        simp [otpFieldLoop, encodeField_id, encodeField_value, otpSpecField, hp,
          List.findSome?_cons, ih]
      | arr xs =>
        simp [otpFieldLoop, encodeField_id, encodeField_value, otpSpecField, hp,
          List.findSome?_cons, ih]
    · simp [otpFieldLoop, encodeField_id, encodeField_value, otpSpecField, hp,
        List.findSome?_cons, ih]

theorem otpSectionLoop_encode (ss : List (List (String × JValue))) :
    otpSectionLoop (ss.map encodeSection) = .ok ((otpSpec ss).getD .null) := by
  induction ss with
  | nil => rfl
  | cons fs rest ih =>
    cases hf : fs.findSome? otpSpecField with
    | some v =>
      simp [otpSectionLoop, encodeSection, pyGet, objLookup, pyIter, otpFieldLoop_encode,
        otpSpec, List.flatten_cons, findSomeAppend, hf]
    | none =>
      have ih2 : otpSectionLoop (rest.map encodeSection)
          = .ok ((rest.flatten.findSome? otpSpecField).getD .null) := ih
      simp [otpSectionLoop, encodeSection, pyGet, objLookup, pyIter, otpFieldLoop_encode,
        otpSpec, List.flatten_cons, findSomeAppend, hf, ih2]

/-! ## The fallback key probe and the address composition -/

theorem genericKeyLoop_spec (kvs : List (String × JValue)) (ks : List String) :
    genericKeyLoop kvs ks = .ok
      (match ks.findSome? (fun k => (objLookup kvs k).filter truthy) with
       | some v => .str (pyStr v)
       | none => .null) := by
  induction ks with
  | nil => rfl
  | cons k rest ih =>
    cases hl : objLookup kvs k with
    | none => simp [genericKeyLoop, hl, List.findSome?_cons, Option.filter, ih]
    | some val =>
      by_cases ht : truthy val = true
      · simp [genericKeyLoop, hl, List.findSome?_cons, Option.filter, ht]
      · simp [genericKeyLoop, hl, List.findSome?_cons, Option.filter, ht, ih]

theorem asStrList_map (l : List String) :
    asStrList (l.map JValue.str) = .ok l := by
  induction l with
  | nil => rfl
  | cons s l ih => simp [asStrList, ih]

theorem joinVals_map (sep : String) (l : List String) :
    joinVals sep (l.map JValue.str) = .ok (String.intercalate sep l) := by
  simp [joinVals, asStrList_map]

theorem filterTruthy3 (a b c : String) :
    [JValue.str a, JValue.str b, JValue.str c].filter truthy
      = ([a, b, c].filter (fun s => s != "")).map JValue.str := by
  by_cases ha : a = "" <;> by_cases hb : b = "" <;> by_cases hc : c = "" <;>
    simp [truthy, ha, hb, hc]

theorem formatAddress_strs (street city state zipCode country : String) :
    formatAddress [("street", .str street), ("city", .str city), ("state", .str state),
        ("zip", .str zipCode), ("country", .str country)]
      = .ok (addressSpec street city state zipCode country) := by
  by_cases hs : street = "" <;> by_cases h1 : city = "" <;> by_cases h2 : state = "" <;>
    by_cases h3 : zipCode = "" <;> by_cases hk : country = "" <;>
      simp [formatAddress, addressSpec, objLookup, truthy, asStrList, joinVals,
        hs, h1, h2, h3, hk]

/-! ## Notes are invariant under deleting the TOTP fields -/

theorem objLookup_consPair (k1 : String) (v1 : JValue) (rest : List (String × JValue))
    (k : String) :
    objLookup ((k1, v1) :: rest) k = if k1 == k then some v1 else objLookup rest k := by
  by_cases h : (k1 == k) = true <;> simp [objLookup, List.find?_cons, h]

theorem objLookup_mapStripKv (k : String) (hne : (k == "fields") = false) :
    ∀ kvs : List (String × JValue), objLookup (kvs.map stripKv) k = objLookup kvs k := by
  intro kvs
  induction kvs with
  | nil => rfl
  | cons kv rest ih =>
    obtain ⟨k1, v1⟩ := kv
    by_cases h1 : (k1 == "fields") = true
    · have hk1 : k1 = "fields" := by simpa using h1
      subst hk1
      have h2 : ("fields" == k) = false := by
        cases hq : ("fields" == k) with
        | false => rfl
        | true =>
          have : "fields" = k := by simpa using hq
          subst this
          simp at hne
      simp [stripKv, h1, objLookup_consPair, h2, ih]
    · simp [stripKv, h1, objLookup_consPair, ih]

theorem objLookup_mapStripKv_fields :
    ∀ kvs : List (String × JValue),
      objLookup (kvs.map stripKv) "fields" = (objLookup kvs "fields").map stripTotpInFields := by
  intro kvs
  induction kvs with
  | nil => rfl
  | cons kv rest ih =>
    obtain ⟨k1, v1⟩ := kv
    by_cases h1 : (k1 == "fields") = true
    · simp [stripKv, h1, objLookup_consPair, ih]
    · simp [stripKv, h1, objLookup_consPair, ih]

theorem objLookup_mapSetKv (K : String) (newV : JValue) (k : String) :
    ∀ kvs : List (String × JValue),
      objLookup (kvs.map (setKv K newV)) k
        = if (k == K) = true then (objLookup kvs k).map (fun _ => newV)
          else objLookup kvs k := by
  intro kvs
  induction kvs with
  | nil => by_cases h : (k == K) = true <;> simp [objLookup, h]
  | cons kv rest ih =>
    obtain ⟨k1, v1⟩ := kv
    by_cases h1 : (k1 == K) = true <;> by_cases h2 : (k1 == k) = true <;>
      by_cases h3 : (k == K) = true <;>
        simp_all [setKv, objLookup_consPair]

theorem sectionFieldLoop_filter (t : JValue) (fs : List JValue) :
    sectionFieldLoop t (fs.filter (fun f => !isTotpField f)) = sectionFieldLoop t fs := by
  induction fs with
  | nil => rfl
  | cons f rest ih =>
    by_cases hT : isTotpField f = true
    · cases f with
      | obj kvs =>
        cases hid : (objLookup kvs "id").getD (.str "") with
        | str s =>
          have hp : pyStartsWith s "TOTP_" = true := by
            simpa [isTotpField, hid] using hT
          simp [List.filter_cons, hT, sectionFieldLoop, pyGet, hid, hp, ih]
        | null => simp [isTotpField, hid] at hT
        | bool b => simp [isTotpField, hid] at hT
        | num n => simp [isTotpField, hid] at hT
        | arr xs => simp [isTotpField, hid] at hT
        | obj kvs2 => simp [isTotpField, hid] at hT
      | null => simp [isTotpField] at hT
      | bool b => simp [isTotpField] at hT
      | num n => simp [isTotpField] at hT
      | str s => simp [isTotpField] at hT
      | arr xs => simp [isTotpField] at hT
    · simp [List.filter_cons, hT, sectionFieldLoop, ih]

theorem stripSection_get_title (kvs : List (String × JValue)) :
    pyGet (stripTotpInSection (.obj kvs)) "title" (.str "")
      = pyGet (.obj kvs) "title" (.str "") := by
  simp [stripTotpInSection, pyGet, objLookup_mapStripKv "title" rfl]

theorem stripSection_get_fields (kvs : List (String × JValue)) :
    pyGet (stripTotpInSection (.obj kvs)) "fields" (.arr [])
      = .ok (stripTotpInFields ((objLookup kvs "fields").getD (.arr []))) := by
  cases hf : objLookup kvs "fields" with
  | none => simp [stripTotpInSection, pyGet, objLookup_mapStripKv_fields, hf, stripTotpInFields]
  | some fv => simp [stripTotpInSection, pyGet, objLookup_mapStripKv_fields, hf]

theorem sectionLoop_strip (ss : List JValue) :
    sectionLoop (ss.map stripTotpInSection) = sectionLoop ss := by
  induction ss with
  | nil => rfl
  | cons s rest ih =>
    cases s with
    | obj kvs =>
      have hfv : ∀ fv : JValue, (do
          let fields ← pyIter (stripTotpInFields fv)
          let here ← sectionFieldLoop ((objLookup kvs "title").getD (.str "")) fields
          let restAcc ← sectionLoop (rest.map stripTotpInSection)
          (Except.ok (here ++ restAcc) : Except Unit (List JValue))) = (do
          let fields ← pyIter fv
          let here ← sectionFieldLoop ((objLookup kvs "title").getD (.str "")) fields
          let restAcc ← sectionLoop rest
          Except.ok (here ++ restAcc)) := by
        intro fv
        cases fv with
        | arr fs => simp [stripTotpInFields, pyIter, sectionFieldLoop_filter, ih]
        | null => simp [stripTotpInFields, pyIter]
        | bool b => simp [stripTotpInFields, pyIter]
        | num n => simp [stripTotpInFields, pyIter]
        | str s2 => simp [stripTotpInFields, pyIter, ih]
        | obj kvs2 => simp [stripTotpInFields, pyIter, ih]
      simp only [List.map_cons, sectionLoop, stripSection_get_title, stripSection_get_fields]
      simp only [pyGet, exOkBind]
      exact hfv ((objLookup kvs "fields").getD (.arr []))
    | null => simp [sectionLoop, stripTotpInSection, ih]
    | bool b => simp [sectionLoop, stripTotpInSection, ih]
    | num n => simp [sectionLoop, stripTotpInSection, ih]
    | str s2 => simp [sectionLoop, stripTotpInSection, ih]
    | arr xs => simp [sectionLoop, stripTotpInSection, ih]

theorem sectionFieldsOf_strip (sections : JValue) :
    sectionFieldsOf (stripTotpFields sections) = sectionFieldsOf sections := by
  cases sections with
  | arr ss => simp [sectionFieldsOf, stripTotpFields, pyIter, sectionLoop_strip]
  | null => rfl
  | bool b => rfl
  | num n => rfl
  | str s => rfl
  | obj kvs => rfl

theorem build_notes_strip (d o : JValue) :
    build_notes (withKey d "sections" (stripTotpFields (objGetD d "sections" (.arr [])))) o
      = build_notes d o := by
  cases d with
  | obj kvs =>
    have hne : ∀ (k : String) (d0 : JValue), (k == "sections") = false →
        pyGet (withKey (.obj kvs) "sections"
            (stripTotpFields (objGetD (.obj kvs) "sections" (.arr [])))) k d0
          = pyGet (.obj kvs) k d0 := by
      intro k d0 hk
      simp [withKey, pyGet, objLookup_mapSetKv, hk]
    have hsec : pyGet (withKey (.obj kvs) "sections"
        (stripTotpFields (objGetD (.obj kvs) "sections" (.arr [])))) "sections" (.arr [])
        = .ok (stripTotpFields (objGetD (.obj kvs) "sections" (.arr []))) := by
      cases hx : objLookup kvs "sections" with
      | none =>
        simp [withKey, pyGet, objLookup_mapSetKv, hx, objGetD, stripTotpFields]
      | some sv =>
        simp [withKey, pyGet, objLookup_mapSetKv, hx, objGetD]
    simp only [build_notes]
    rw [hne "notesPlain" (.str "") rfl, hne "loginFields" (.arr []) rfl,
      hne "passwordHistory" (.arr []) rfl, hsec]
    simp only [pyGet, objGetD, exOkBind, sectionFieldsOf_strip]
  | null => rfl
  | bool b => rfl
  | num n => rfl
  | str s => rfl
  | arr xs => rfl

/-! ## Totality of the item conversion on well-typed items -/

theorem isObj_exists {v : JValue} (h : v.isObj = true) : ∃ kvs, v = .obj kvs := by
  cases v <;> simp [JValue.isObj] at h ⊢

theorem isStr_exists {v : JValue} (h : v.isStr = true) : ∃ s, v = .str s := by
  cases v <;> simp [JValue.isStr] at h ⊢

theorem isArr_exists {v : JValue} (h : v.isArr = true) : ∃ xs, v = .arr xs := by
  cases v <;> simp [JValue.isArr] at h ⊢

theorem strIfTruthy_elim {v : JValue} (h : strIfTruthy v = true) (ht : truthy v = true) :
    v.isStr = true := by
  simp [strIfTruthy, ht] at h
  exact h

theorem asStrList_ok : ∀ parts : List JValue, parts.all JValue.isStr = true →
    ∃ ss, asStrList parts = .ok ss := by
  intro parts
  induction parts with
  | nil => intro h; exact ⟨[], rfl⟩
  | cons v rest ih =>
    intro h
    simp only [List.all_cons, Bool.and_eq_true] at h
    obtain ⟨hv, hrest⟩ := h
    obtain ⟨s, rfl⟩ := isStr_exists hv
    obtain ⟨ss, hss⟩ := ih hrest
    exact ⟨s :: ss, by simp [asStrList, hss]⟩

theorem joinVals_ok (sep : String) (parts : List JValue) (h : parts.all JValue.isStr = true) :
    ∃ s, joinVals sep parts = .ok s := by
  obtain ⟨ss, hss⟩ := asStrList_ok parts h
  exact ⟨String.intercalate sep ss, by simp [joinVals, hss]⟩

@[simp]
theorem truthy_null : truthy .null = false := rfl

@[simp]
theorem truthy_bool (b : Bool) : truthy (.bool b) = b := rfl

@[simp]
theorem truthy_num (n : Int) : truthy (.num n) = (n != 0) := rfl

@[simp]
theorem truthy_str (s : String) : truthy (.str s) = (s != "") := rfl

@[simp]
theorem truthy_arr (xs : List JValue) : truthy (.arr xs) = !xs.isEmpty := rfl

@[simp]
theorem truthy_obj (kvs : List (String × JValue)) : truthy (.obj kvs) = !kvs.isEmpty := rfl

theorem extract_username_loop_ok : ∀ fs : List JValue, fs.all JValue.isObj = true →
    ∃ r, extract_username_loop fs = .ok r := by
  intro fs
  induction fs with
  | nil => intro h; exact ⟨.null, rfl⟩
  | cons f rest ih =>
    intro h
    simp only [List.all_cons, Bool.and_eq_true] at h
    obtain ⟨hf, hrest⟩ := h
    obtain ⟨kvs, rfl⟩ := isObj_exists hf
    by_cases hd : isStrEq ((objLookup kvs "designation").getD .null) "username" = true
    · exact ⟨(objLookup kvs "value").getD (.str ""),
        by simp [extract_username_loop, pyGet, hd]⟩
    · obtain ⟨r, hr⟩ := ih hrest
      exact ⟨r, by simp [extract_username_loop, pyGet, hd, hr]⟩

theorem extract_password_loop_ok : ∀ fs : List JValue, fs.all JValue.isObj = true →
    ∃ r, extract_password_loop fs = .ok r := by
  intro fs
  induction fs with
  | nil => intro h; exact ⟨.null, rfl⟩
  | cons f rest ih =>
    intro h
    simp only [List.all_cons, Bool.and_eq_true] at h
    obtain ⟨hf, hrest⟩ := h
    obtain ⟨kvs, rfl⟩ := isObj_exists hf
    by_cases hd : isStrEq ((objLookup kvs "designation").getD .null) "password" = true
    · exact ⟨(objLookup kvs "value").getD (.str ""),
        by simp [extract_password_loop, pyGet, hd]⟩
    · obtain ⟨r, hr⟩ := ih hrest
      exact ⟨r, by simp [extract_password_loop, pyGet, hd, hr]⟩

theorem extract_url_ok (o : JValue) (h : overviewOk o = true) :
    ∃ r, extract_url o = .ok r := by
  simp only [overviewOk, Bool.and_eq_true] at h
  obtain ⟨⟨ho, htags⟩, hurls⟩ := h
  obtain ⟨kvs, rfl⟩ := isObj_exists ho
  by_cases hu : truthy ((objLookup kvs "url").getD .null) = true
  · exact ⟨(objLookup kvs "url").getD .null, by simp [extract_url, pyGet, hu]⟩
  · simp only [urlsOk, objGetD] at hurls
    cases hv : (objLookup kvs "urls").getD (.arr []) with
    | arr us =>
      cases us with
      | nil => exact ⟨.null, by simp [extract_url, pyGet, hu, hv]⟩
      | cons u us2 =>
        rw [hv] at hurls
        simp only [List.all_cons, Bool.and_eq_true] at hurls
        obtain ⟨kvs2, hu2⟩ := isObj_exists hurls.1
        subst hu2
        exact ⟨(objLookup kvs2 "url").getD (.str ""),
          by simp [extract_url, pyGet, hu, hv, pyLen, pyIndex0]⟩
    | null => rw [hv] at hurls; simp [urlsOk] at hurls
    | bool b => rw [hv] at hurls; simp [urlsOk] at hurls
    | num n => rw [hv] at hurls; simp [urlsOk] at hurls
    | str s => rw [hv] at hurls; simp [urlsOk] at hurls
    | obj kvs2 => rw [hv] at hurls; simp [urlsOk] at hurls

theorem otpFieldLoop_ok : ∀ fs : List JValue, fs.all sectionFieldOk = true →
    ∃ r, otpFieldLoop fs = .ok r := by
  intro fs
  induction fs with
  | nil => intro h; exact ⟨none, rfl⟩
  | cons f rest ih =>
    intro h
    simp only [List.all_cons, Bool.and_eq_true] at h
    obtain ⟨hf, hrest⟩ := h
    obtain ⟨r, hr⟩ := ih hrest
    cases f with
    | obj kvs =>
      simp only [sectionFieldOk, Bool.and_eq_true] at hf
      obtain ⟨s, hs⟩ := isStr_exists hf.1
      by_cases hp : pyStartsWith s "TOTP_" = true
      · cases hv : (objLookup kvs "value").getD (.obj []) with
        | obj kvs2 =>
          by_cases ht : truthy ((objLookup kvs2 "totp").getD (.str "")) = true
          · exact ⟨some ((objLookup kvs2 "totp").getD (.str "")),
              by simp [otpFieldLoop, pyGet, hs, hp, hv, ht]⟩
          · exact ⟨r, by simp [otpFieldLoop, pyGet, hs, hp, hv, ht, hr]⟩
        | str s2 => exact ⟨some (.str s2), by simp [otpFieldLoop, pyGet, hs, hp, hv]⟩
        | null => exact ⟨r, by simp [otpFieldLoop, pyGet, hs, hp, hv, hr]⟩
        | bool b => exact ⟨r, by simp [otpFieldLoop, pyGet, hs, hp, hv, hr]⟩
        | num n => exact ⟨r, by simp [otpFieldLoop, pyGet, hs, hp, hv, hr]⟩
        | arr xs => exact ⟨r, by simp [otpFieldLoop, pyGet, hs, hp, hv, hr]⟩
      · exact ⟨r, by simp [otpFieldLoop, pyGet, hs, hp, hr]⟩
    | null => simp [sectionFieldOk] at hf
    | bool b => simp [sectionFieldOk] at hf
    | num n => simp [sectionFieldOk] at hf
    | str s => simp [sectionFieldOk] at hf
    | arr xs => simp [sectionFieldOk] at hf

theorem otpSectionLoop_ok : ∀ ss : List JValue, ss.all sectionOk = true →
    ∃ r, otpSectionLoop ss = .ok r := by
  intro ss
  induction ss with
  | nil => intro h; exact ⟨.null, rfl⟩
  | cons s rest ih =>
    intro h
    simp only [List.all_cons, Bool.and_eq_true] at h
    obtain ⟨hs, hrest⟩ := h
    obtain ⟨r, hr⟩ := ih hrest
    cases s with
    | obj kvs =>
      simp only [sectionOk] at hs
      cases hfv : (objLookup kvs "fields").getD (.arr []) with
      | arr fs =>
        rw [hfv] at hs
        obtain ⟨fr, hfr⟩ := otpFieldLoop_ok fs hs
        cases fr with
        | some v => exact ⟨v, by simp [otpSectionLoop, pyGet, hfv, pyIter, hfr]⟩
        | none => exact ⟨r, by simp [otpSectionLoop, pyGet, hfv, pyIter, hfr, hr]⟩
      | null => rw [hfv] at hs; simp at hs
      | bool b => rw [hfv] at hs; simp at hs
      | num n => rw [hfv] at hs; simp at hs
      | str s2 => rw [hfv] at hs; simp at hs
      | obj kvs2 => rw [hfv] at hs; simp at hs
    | null => simp [sectionOk] at hs
    | bool b => simp [sectionOk] at hs
    | num n => simp [sectionOk] at hs
    | str s2 => simp [sectionOk] at hs
    | arr xs => simp [sectionOk] at hs

theorem extract_otp_auth_ok (v : JValue) (h : sectionsOk v = true) :
    ∃ r, extract_otp_auth v = .ok r := by
  cases v with
  | arr ss =>
    simp only [sectionsOk] at h
    obtain ⟨r, hr⟩ := otpSectionLoop_ok ss h
    exact ⟨r, by simp [extract_otp_auth, pyIter, hr]⟩
  | null => simp [sectionsOk] at h
  | bool b => simp [sectionsOk] at h
  | num n => simp [sectionsOk] at h
  | str s => simp [sectionsOk] at h
  | obj kvs => simp [sectionsOk] at h

@[simp]
theorem isStr_str (s : String) : (JValue.str s).isStr = true := rfl

@[simp]
theorem isObj_obj (kvs : List (String × JValue)) : (JValue.obj kvs).isObj = true := rfl

@[simp]
theorem isArr_arr (xs : List JValue) : (JValue.arr xs).isArr = true := rfl

theorem finalJoin_ok (parts : List JValue) (h : parts.all JValue.isStr = true) :
    ∃ r, (if parts.isEmpty then (Except.ok JValue.null : Except Unit JValue)
          else do
            let s ← joinVals ", " parts
            .ok (.str s)) = .ok r := by
  by_cases hE : parts.isEmpty = true
  · exact ⟨.null, by simp [hE]⟩
  · obtain ⟨s, hs⟩ := joinVals_ok ", " parts h
    exact ⟨.str s, by simp [hE, hs]⟩

theorem formatAddress_ok (akvs : List (String × JValue))
    (h1 : strIfTruthy ((objLookup akvs "street").getD .null) = true)
    (h2 : strIfTruthy ((objLookup akvs "city").getD (.str "")) = true)
    (h3 : strIfTruthy ((objLookup akvs "state").getD (.str "")) = true)
    (h4 : strIfTruthy ((objLookup akvs "zip").getD (.str "")) = true)
    (h5 : strIfTruthy ((objLookup akvs "country").getD (.str "")) = true) :
    ∃ r, formatAddress akvs = .ok r := by
  have hcityAll : ([(objLookup akvs "city").getD (.str ""),
      (objLookup akvs "state").getD (.str ""),
      (objLookup akvs "zip").getD (.str "")].filter truthy).all JValue.isStr = true := by
    rw [List.all_eq_true]
    intro v hv
    rw [List.mem_filter] at hv
    obtain ⟨hmem, htr⟩ := hv
    simp only [List.mem_cons, List.not_mem_nil, or_false] at hmem
    rcases hmem with rfl | rfl | rfl
    · exact strIfTruthy_elim h2 htr
    · exact strIfTruthy_elim h3 htr
    · exact strIfTruthy_elim h4 htr
  have hp1 : (if truthy ((objLookup akvs "street").getD .null)
      then [(objLookup akvs "street").getD .null] else []).all JValue.isStr = true := by
    by_cases hst : truthy ((objLookup akvs "street").getD .null) = true
    · simp [hst, strIfTruthy_elim h1 hst]
    · simp [hst]
  simp only [formatAddress]
  by_cases hE : ([(objLookup akvs "city").getD (.str ""),
      (objLookup akvs "state").getD (.str ""),
      (objLookup akvs "zip").getD (.str "")].filter truthy).isEmpty = true
  · rw [if_pos hE]
    simp only [exPureOk, exOkBind]
    apply finalJoin_ok
    by_cases hco : truthy ((objLookup akvs "country").getD (.str "")) = true
    · simp [hco, List.all_append, hp1, strIfTruthy_elim h5 hco]
    · simp [hco, hp1]
  · rw [if_neg hE]
    obtain ⟨cp, hcp⟩ := joinVals_ok ", " _ hcityAll
    rw [hcp]
    simp only [exOkBind, exPureOk]
    apply finalJoin_ok
    by_cases hco : truthy ((objLookup akvs "country").getD (.str "")) = true
    · simp [hco, List.all_append, hp1, strIfTruthy_elim h5 hco]
    · simp [hco, List.all_append, hp1]

theorem genericKeyLoop_ok (kvs : List (String × JValue)) (ks : List String) :
    ∃ r, genericKeyLoop kvs ks = .ok r := by
  rw [genericKeyLoop_spec]
  exact ⟨_, rfl⟩

theorem format_field_value_ok (v : JValue) (h : fmtOk v = true) :
    ∃ r, format_field_value v = .ok r := by
  cases v with
  | obj kvs =>
    by_cases ht : truthy (.obj kvs) = true
    · by_cases hc : hasKey kvs "concealed" = true
      · exact ⟨(objLookup kvs "concealed").getD .null, by simp [format_field_value, ht, hc]⟩
      · by_cases hs : hasKey kvs "string" = true
        · exact ⟨(objLookup kvs "string").getD .null, by simp [format_field_value, ht, hc, hs]⟩
        · by_cases hsso : hasKey kvs "ssoLogin" = true
          · cases hv : (objLookup kvs "ssoLogin").getD .null with
            | obj skvs =>
              by_cases hp : truthy ((objLookup skvs "provider").getD (.str "")) = true
              · exact ⟨(objLookup skvs "provider").getD (.str ""),
                  by simp [format_field_value, ht, hc, hs, hsso, hv, hp]⟩
              · exact ⟨.null, by simp [format_field_value, ht, hc, hs, hsso, hv, hp]⟩
            | null => exact ⟨.null, by simp [format_field_value, ht, hc, hs, hsso, hv]⟩
            | bool b => exact ⟨.null, by simp [format_field_value, ht, hc, hs, hsso, hv]⟩
            | num n => exact ⟨.null, by simp [format_field_value, ht, hc, hs, hsso, hv]⟩
            | str s2 => exact ⟨.null, by simp [format_field_value, ht, hc, hs, hsso, hv]⟩
            | arr xs => exact ⟨.null, by simp [format_field_value, ht, hc, hs, hsso, hv]⟩
          · by_cases hm : hasKey kvs "menu" = true
            · by_cases hmv : truthy ((objLookup kvs "menu").getD .null) = true
              · exact ⟨(objLookup kvs "menu").getD .null,
                  by simp [format_field_value, ht, hc, hs, hsso, hm, hmv]⟩
              · exact ⟨.null, by simp [format_field_value, ht, hc, hs, hsso, hm, hmv]⟩
            · by_cases ha : hasKey kvs "address" = true
              · cases hav : (objLookup kvs "address").getD .null with
                | obj akvs =>
                  simp [fmtOk, hc, hs, hsso, hm, hav] at h
                  simp only [addrOkFields, Bool.and_eq_true] at h
                  obtain ⟨⟨⟨⟨ha1, ha2⟩, ha3⟩, ha4⟩, ha5⟩ := h
                  obtain ⟨r, hr⟩ := formatAddress_ok akvs ha1 ha2 ha3 ha4 ha5
                  exact ⟨r, by simp [format_field_value, ht, hc, hs, hsso, hm, ha, hav, hr]⟩
                | null =>
                  obtain ⟨r, hr⟩ := genericKeyLoop_ok kvs ["value", "text", "name", "label"]
                  exact ⟨r, by simp [format_field_value, ht, hc, hs, hsso, hm, ha, hav, hr]⟩
                | bool b =>
                  obtain ⟨r, hr⟩ := genericKeyLoop_ok kvs ["value", "text", "name", "label"]
                  exact ⟨r, by simp [format_field_value, ht, hc, hs, hsso, hm, ha, hav, hr]⟩
                | num n =>
                  obtain ⟨r, hr⟩ := genericKeyLoop_ok kvs ["value", "text", "name", "label"]
                  exact ⟨r, by simp [format_field_value, ht, hc, hs, hsso, hm, ha, hav, hr]⟩
                | str s2 =>
                  obtain ⟨r, hr⟩ := genericKeyLoop_ok kvs ["value", "text", "name", "label"]
                  exact ⟨r, by simp [format_field_value, ht, hc, hs, hsso, hm, ha, hav, hr]⟩
                | arr xs =>
                  obtain ⟨r, hr⟩ := genericKeyLoop_ok kvs ["value", "text", "name", "label"]
                  exact ⟨r, by simp [format_field_value, ht, hc, hs, hsso, hm, ha, hav, hr]⟩
              · obtain ⟨r, hr⟩ := genericKeyLoop_ok kvs ["value", "text", "name", "label"]
                exact ⟨r, by simp [format_field_value, ht, hc, hs, hsso, hm, ha, hr]⟩
    · exact ⟨.null, by simp [format_field_value, ht]⟩
  | null => exact ⟨.null, by simp [format_field_value]⟩
  | bool b =>
    by_cases ht : truthy (.bool b) = true
    · exact ⟨.str (pyStr (.bool b)), by simp [format_field_value, ht]⟩
    · exact ⟨.null, by simp [format_field_value, ht]⟩
  | num n =>
    by_cases ht : truthy (.num n) = true
    · exact ⟨.str (pyStr (.num n)), by simp [format_field_value, ht]⟩
    · exact ⟨.null, by simp [format_field_value, ht]⟩
  | str s =>
    by_cases ht : truthy (.str s) = true
    · exact ⟨.str s, by simp [format_field_value, ht]⟩
    · exact ⟨.null, by simp [format_field_value, ht]⟩
  | arr xs =>
    by_cases ht : truthy (.arr xs) = true
    · exact ⟨.str (pyStr (.arr xs)), by simp [format_field_value, ht]⟩
    · exact ⟨.null, by simp [format_field_value, ht]⟩

theorem pyJoin_tags_ok (v : JValue) (h : tagsOk v = true) (ht : truthy v = true) :
    ∃ s, pyJoin ", " v = .ok s := by
  simp only [tagsOk, ht, Bool.not_true, Bool.false_or] at h
  cases v with
  | arr ts =>
    obtain ⟨ss, hss⟩ := asStrList_ok ts h
    exact ⟨String.intercalate ", " ss, by simp [pyJoin, pyIter, joinVals, hss]⟩
  | null => simp at h
  | bool b => simp at h
  | num n => simp at h
  | str s => simp at h
  | obj kvs => simp at h

theorem otherFieldsLoop_ok : ∀ fs : List JValue, fs.all JValue.isObj = true →
    ∃ r, otherFieldsLoop fs = .ok r := by
  intro fs
  induction fs with
  | nil => intro h; exact ⟨[], rfl⟩
  | cons f rest ih =>
    intro h
    simp only [List.all_cons, Bool.and_eq_true] at h
    obtain ⟨hf, hrest⟩ := h
    obtain ⟨kvs, rfl⟩ := isObj_exists hf
    obtain ⟨r, hr⟩ := ih hrest
    by_cases hd1 : isStrEq ((objLookup kvs "designation").getD (.str "")) "username" = true
    · exact ⟨r, by simp [otherFieldsLoop, pyGet, hd1, hr]⟩
    · by_cases hd2 : isStrEq ((objLookup kvs "designation").getD (.str "")) "password" = true
      · exact ⟨r, by simp [otherFieldsLoop, pyGet, hd1, hd2, hr]⟩
      · by_cases hv : truthy ((objLookup kvs "value").getD (.str "")) = true
        · by_cases hn : truthy ((objLookup kvs "name").getD (.str "")) = true
          · exact ⟨[JValue.str (pyStr ((objLookup kvs "name").getD (.str "")) ++ ": "
                ++ pyStr ((objLookup kvs "value").getD (.str "")))] ++ r,
              by simp [otherFieldsLoop, pyGet, hd1, hd2, hv, hn, hr]⟩
          · exact ⟨[(objLookup kvs "value").getD (.str "")] ++ r,
              by simp [otherFieldsLoop, pyGet, hd1, hd2, hv, hn, hr]⟩
        · exact ⟨r, by simp [otherFieldsLoop, pyGet, hd1, hd2, hv, hr]⟩

theorem sectionFieldLoop_ok (t : JValue) : ∀ fs : List JValue,
    fs.all sectionFieldOk = true → ∃ r, sectionFieldLoop t fs = .ok r := by
  intro fs
  induction fs with
  | nil => intro h; exact ⟨[], rfl⟩
  | cons f rest ih =>
    intro h
    simp only [List.all_cons, Bool.and_eq_true] at h
    obtain ⟨hf, hrest⟩ := h
    obtain ⟨r, hr⟩ := ih hrest
    cases f with
    | obj kvs =>
      simp only [sectionFieldOk, Bool.and_eq_true] at hf
      obtain ⟨s, hs⟩ := isStr_exists hf.1
      by_cases hp : pyStartsWith s "TOTP_" = true
      · exact ⟨r, by simp [sectionFieldLoop, pyGet, hs, hp, hr]⟩
      · obtain ⟨fv, hfv⟩ := format_field_value_ok ((objLookup kvs "value").getD (.str "")) hf.2
        by_cases htv : truthy fv = true
        · by_cases ht1 : truthy t = true
          · by_cases hft : truthy ((objLookup kvs "title").getD (.str "")) = true
            · exact ⟨[JValue.str (pyStr t ++ " - "
                  ++ pyStr ((objLookup kvs "title").getD (.str "")) ++ ": " ++ pyStr fv)] ++ r,
                by simp [sectionFieldLoop, pyGet, hs, hp, hfv, htv, ht1, hft, hr]⟩
            · exact ⟨[fv] ++ r,
                by simp [sectionFieldLoop, pyGet, hs, hp, hfv, htv, ht1, hft, hr]⟩
          · by_cases hft : truthy ((objLookup kvs "title").getD (.str "")) = true
            · exact ⟨[JValue.str (pyStr ((objLookup kvs "title").getD (.str "")) ++ ": "
                  ++ pyStr fv)] ++ r,
                by simp [sectionFieldLoop, pyGet, hs, hp, hfv, htv, ht1, hft, hr]⟩
            · exact ⟨[fv] ++ r,
                by simp [sectionFieldLoop, pyGet, hs, hp, hfv, htv, ht1, hft, hr]⟩
        · exact ⟨r, by simp [sectionFieldLoop, pyGet, hs, hp, hfv, htv, hr]⟩
    | null => simp [sectionFieldOk] at hf
    | bool b => simp [sectionFieldOk] at hf
    | num n => simp [sectionFieldOk] at hf
    | str s => simp [sectionFieldOk] at hf
    | arr xs => simp [sectionFieldOk] at hf

theorem sectionLoop_ok : ∀ ss : List JValue, ss.all sectionOk = true →
    ∃ r, sectionLoop ss = .ok r := by
  intro ss
  induction ss with
  | nil => intro h; exact ⟨[], rfl⟩
  | cons s rest ih =>
    intro h
    simp only [List.all_cons, Bool.and_eq_true] at h
    obtain ⟨hs, hrest⟩ := h
    obtain ⟨r, hr⟩ := ih hrest
    cases s with
    | obj kvs =>
      simp only [sectionOk] at hs
      cases hfv : (objLookup kvs "fields").getD (.arr []) with
      | arr fs =>
        rw [hfv] at hs
        obtain ⟨fr, hfr⟩ := sectionFieldLoop_ok ((objLookup kvs "title").getD (.str "")) fs hs
        exact ⟨fr ++ r, by simp [sectionLoop, pyGet, hfv, pyIter, hfr, hr]⟩
      | null => rw [hfv] at hs; simp at hs
      | bool b => rw [hfv] at hs; simp at hs
      | num n => rw [hfv] at hs; simp at hs
      | str s2 => rw [hfv] at hs; simp at hs
      | obj kvs2 => rw [hfv] at hs; simp at hs
    | null => simp [sectionOk] at hs
    | bool b => simp [sectionOk] at hs
    | num n => simp [sectionOk] at hs
    | str s2 => simp [sectionOk] at hs
    | arr xs => simp [sectionOk] at hs

theorem sectionFieldsOf_ok (v : JValue) (h : sectionsOk v = true) :
    ∃ r, sectionFieldsOf v = .ok r := by
  cases v with
  | arr ss =>
    simp only [sectionsOk] at h
    obtain ⟨r, hr⟩ := sectionLoop_ok ss h
    exact ⟨r, by simp [sectionFieldsOf, pyIter, hr]⟩
  | null => simp [sectionsOk] at h
  | bool b => simp [sectionsOk] at h
  | num n => simp [sectionsOk] at h
  | str s => simp [sectionsOk] at h
  | obj kvs => simp [sectionsOk] at h

theorem otherUrlsLoop_ok : ∀ us : List JValue, us.all JValue.isObj = true →
    ∃ r, otherUrlsLoop us = .ok r := by
  intro us
  induction us with
  | nil => intro h; exact ⟨[], rfl⟩
  | cons u rest ih =>
    intro h
    simp only [List.all_cons, Bool.and_eq_true] at h
    obtain ⟨hu, hrest⟩ := h
    obtain ⟨kvs, rfl⟩ := isObj_exists hu
    obtain ⟨r, hr⟩ := ih hrest
    by_cases hv : truthy ((objLookup kvs "url").getD (.str "")) = true
    · by_cases hl : truthy ((objLookup kvs "label").getD (.str "")) = true
      · exact ⟨[JValue.str (pyStr ((objLookup kvs "label").getD (.str "")) ++ ": "
            ++ pyStr ((objLookup kvs "url").getD (.str "")))] ++ r,
          by simp [otherUrlsLoop, pyGet, hv, hl, hr]⟩
      · exact ⟨[(objLookup kvs "url").getD (.str "")] ++ r,
          by simp [otherUrlsLoop, pyGet, hv, hl, hr]⟩
    · exact ⟨r, by simp [otherUrlsLoop, pyGet, hv, hr]⟩

theorem otherUrlsOf_ok (v : JValue) (h : urlsOk v = true) :
    ∃ r, otherUrlsOf v = .ok r := by
  cases v with
  | arr us =>
    simp only [urlsOk] at h
    have hdrop : (us.drop 1).all JValue.isObj = true := by
      rw [List.all_eq_true] at h ⊢
      intro x hx
      exact h x (List.mem_of_mem_drop hx)
    obtain ⟨r, hr⟩ := otherUrlsLoop_ok (us.drop 1) hdrop
    rw [List.drop_one] at hr
    exact ⟨r, by simp [otherUrlsOf, pySlice1, hr]⟩
  | null => simp [urlsOk] at h
  | bool b => simp [urlsOk] at h
  | num n => simp [urlsOk] at h
  | str s => simp [urlsOk] at h
  | obj kvs => simp [urlsOk] at h

theorem pyGet_obj (kvs : List (String × JValue)) (k : String) (d : JValue) :
    pyGet (.obj kvs) k d = .ok ((objLookup kvs k).getD d) := rfl

theorem notesStep1_ok (np : JValue) (h : strIfTruthy np = true) :
    ∃ p1, notesBlock1 np = .ok p1 := by
  by_cases ht : truthy np = true
  · obtain ⟨s, rfl⟩ := isStr_exists (strIfTruthy_elim h ht)
    exact ⟨[stripStr s], by simp [notesBlock1, ht]⟩
  · exact ⟨[], by simp [notesBlock1, ht]⟩

theorem notesStep2_ok (tags : JValue) (h : tagsOk tags = true) :
    ∃ f : List String → List String, ∀ p1, notesBlock2 tags p1 = .ok (f p1) := by
  by_cases ht : truthy tags = true
  · obtain ⟨ts, hts⟩ := pyJoin_tags_ok tags h ht
    exact ⟨fun p1 => p1 ++ ["標籤: " ++ ts], fun p1 => by simp [notesBlock2, ht, hts]⟩
  · exact ⟨fun p1 => p1, fun p1 => by simp [notesBlock2, ht]⟩

theorem notesStep5_ok (urls : JValue) (h : urlsOk urls = true) (n : Nat) :
    ∃ f : List String → List String, ∀ p4, notesBlock5 urls n p4 = .ok (f p4) := by
  by_cases hn : n > 1
  · obtain ⟨ou, hou⟩ := otherUrlsOf_ok urls h
    exact ⟨fun p4 => if !ou.isEmpty then p4 ++ ["其他網址:\n" ++ bullets ou] else p4,
      fun p4 => by simp [notesBlock5, hn, hou]⟩
  · exact ⟨fun p4 => p4, fun p4 => by simp [notesBlock5, hn]⟩

theorem notesStep6_ok (ph : JValue) (h : historyOk ph = true) :
    ∃ f : List String → List String, ∀ p5, notesBlock6 ph p5 = .ok (f p5) := by
  by_cases ht : truthy ph = true
  · have hArr : ph.isArr = true := by
      simp [historyOk, ht] at h
      exact h
    obtain ⟨xs, rfl⟩ := isArr_exists hArr
    exact ⟨fun p5 => p5 ++ ["密碼歷史記錄: " ++ toString xs.length ++ " 筆"],
      fun p5 => by simp [notesBlock6, ht, pyLen]⟩
  · exact ⟨fun p5 => p5, fun p5 => by simp [notesBlock6, ht]⟩

theorem build_notes_ok (d o : JValue) (hd : detailsOk d = true) (ho : overviewOk o = true) :
    ∃ s, build_notes d o = .ok s := by
  simp only [detailsOk, Bool.and_eq_true] at hd
  obtain ⟨⟨⟨⟨hdo, hnp⟩, hlf⟩, hsec⟩, hph⟩ := hd
  simp only [overviewOk, Bool.and_eq_true] at ho
  obtain ⟨⟨hoo, htags⟩, hurls⟩ := ho
  obtain ⟨kvs, rfl⟩ := isObj_exists hdo
  obtain ⟨okvs, rfl⟩ := isObj_exists hoo
  simp only [objGetD] at hnp hlf hsec hph htags hurls
  obtain ⟨p1, hp1⟩ := notesStep1_ok ((objLookup kvs "notesPlain").getD (.str "")) hnp
  obtain ⟨f2, hf2⟩ := notesStep2_ok ((objLookup okvs "tags").getD (.arr [])) htags
  have hofE : ∃ ofl, otherFieldsOf ((objLookup kvs "loginFields").getD (.arr [])) = .ok ofl := by
    cases hlv : (objLookup kvs "loginFields").getD (.arr []) with
    | arr fs =>
      rw [hlv] at hlf
      simp only [loginFieldsOk] at hlf
      obtain ⟨ofl, hofl⟩ := otherFieldsLoop_ok fs hlf
      exact ⟨ofl, by simp [otherFieldsOf, pyIter, hofl]⟩
    | null => rw [hlv] at hlf; simp [loginFieldsOk] at hlf
    | bool b => rw [hlv] at hlf; simp [loginFieldsOk] at hlf
    | num n => rw [hlv] at hlf; simp [loginFieldsOk] at hlf
    | str s => rw [hlv] at hlf; simp [loginFieldsOk] at hlf
    | obj kvs2 => rw [hlv] at hlf; simp [loginFieldsOk] at hlf
  obtain ⟨ofl, hof⟩ := hofE
  obtain ⟨sf, hsf⟩ := sectionFieldsOf_ok ((objLookup kvs "sections").getD (.arr [])) hsec
  have hlenE : ∃ n, pyLen ((objLookup okvs "urls").getD (.arr [])) = .ok n := by
    cases hul : (objLookup okvs "urls").getD (.arr []) with
    | arr us => exact ⟨us.length, by simp [pyLen]⟩
    | null => rw [hul] at hurls; simp [urlsOk] at hurls
    | bool b => rw [hul] at hurls; simp [urlsOk] at hurls
    | num n => rw [hul] at hurls; simp [urlsOk] at hurls
    | str s => rw [hul] at hurls; simp [urlsOk] at hurls
    | obj kvs2 => rw [hul] at hurls; simp [urlsOk] at hurls
  obtain ⟨n, hlen⟩ := hlenE
  obtain ⟨f5, hf5⟩ := notesStep5_ok ((objLookup okvs "urls").getD (.arr [])) hurls n
  obtain ⟨f6, hf6⟩ := notesStep6_ok ((objLookup kvs "passwordHistory").getD (.arr [])) hph
  cases hB : build_notes (.obj kvs) (.obj okvs) with
  | ok s => exact ⟨s, rfl⟩
  | error e =>
    cases e
    unfold build_notes at hB
    simp only [pyGet_obj, exOkBind] at hB
    rw [hp1] at hB
    simp only [exOkBind] at hB
    rw [hf2] at hB
    simp only [exOkBind] at hB
    rw [hof] at hB
    simp only [exOkBind] at hB
    rw [hsf] at hB
    simp only [exOkBind] at hB
    rw [hlen] at hB
    simp only [exOkBind] at hB
    rw [hf5] at hB
    simp only [exOkBind] at hB
    rw [hf6] at hB
    simp only [exOkBind] at hB
    simp at hB

theorem convert_item_ok (item : JValue) (h : wellTyped item = true) :
    ∃ row, convert_item_to_csv_row item = .ok row := by
  simp only [wellTyped, Bool.and_eq_true] at h
  obtain ⟨⟨hobj, ho⟩, hd⟩ := h
  obtain ⟨kvs, rfl⟩ := isObj_exists hobj
  simp only [objGetD] at ho hd
  have hoObj : (((objLookup kvs "overview").getD (.obj []))).isObj = true := by
    have := ho
    simp only [overviewOk, Bool.and_eq_true] at this
    exact this.1.1
  have hdObj : (((objLookup kvs "details").getD (.obj []))).isObj = true := by
    have := hd
    simp only [detailsOk, Bool.and_eq_true] at this
    exact this.1.1.1.1
  obtain ⟨okvs, hok⟩ := isObj_exists hoObj
  obtain ⟨dkvs, hdk⟩ := isObj_exists hdObj
  obtain ⟨u, hu⟩ := extract_url_ok ((objLookup kvs "overview").getD (.obj [])) ho
  have hlfOk : loginFieldsOk ((objLookup dkvs "loginFields").getD (.arr [])) = true := by
    rw [hdk] at hd
    simp only [detailsOk, Bool.and_eq_true, objGetD] at hd
    exact hd.1.1.2
  have hsecOk : sectionsOk ((objLookup dkvs "sections").getD (.arr [])) = true := by
    rw [hdk] at hd
    simp only [detailsOk, Bool.and_eq_true, objGetD] at hd
    exact hd.1.2
  have husrE : ∃ r, extract_username ((objLookup dkvs "loginFields").getD (.arr [])) = .ok r := by
    cases hlv : (objLookup dkvs "loginFields").getD (.arr []) with
    | arr fs =>
      rw [hlv] at hlfOk
      simp only [loginFieldsOk] at hlfOk
      obtain ⟨r, hr⟩ := extract_username_loop_ok fs hlfOk
      exact ⟨r, by simp [extract_username, pyIter, hr]⟩
    | null => rw [hlv] at hlfOk; simp [loginFieldsOk] at hlfOk
    | bool b => rw [hlv] at hlfOk; simp [loginFieldsOk] at hlfOk
    | num n => rw [hlv] at hlfOk; simp [loginFieldsOk] at hlfOk
    | str s => rw [hlv] at hlfOk; simp [loginFieldsOk] at hlfOk
    | obj kvs2 => rw [hlv] at hlfOk; simp [loginFieldsOk] at hlfOk
  obtain ⟨usr, husr⟩ := husrE
  have hpwdE : ∃ r, extract_password ((objLookup dkvs "loginFields").getD (.arr [])) = .ok r := by
    cases hlv : (objLookup dkvs "loginFields").getD (.arr []) with
    | arr fs =>
      rw [hlv] at hlfOk
      simp only [loginFieldsOk] at hlfOk
      obtain ⟨r, hr⟩ := extract_password_loop_ok fs hlfOk
      exact ⟨r, by simp [extract_password, pyIter, hr]⟩
    | null => rw [hlv] at hlfOk; simp [loginFieldsOk] at hlfOk
    | bool b => rw [hlv] at hlfOk; simp [loginFieldsOk] at hlfOk
    | num n => rw [hlv] at hlfOk; simp [loginFieldsOk] at hlfOk
    | str s => rw [hlv] at hlfOk; simp [loginFieldsOk] at hlfOk
    | obj kvs2 => rw [hlv] at hlfOk; simp [loginFieldsOk] at hlfOk
  obtain ⟨pwd, hpwd⟩ := hpwdE
  obtain ⟨otp, hotp⟩ := extract_otp_auth_ok ((objLookup dkvs "sections").getD (.arr [])) hsecOk
  have hdOk : detailsOk (.obj dkvs) = true := by rw [← hdk]; exact hd
  have hoOk : overviewOk (.obj okvs) = true := by rw [← hok]; exact ho
  obtain ⟨ns, hns⟩ := build_notes_ok (.obj dkvs) (.obj okvs) hdOk hoOk
  cases hC : convert_item_to_csv_row (.obj kvs) with
  | ok row => exact ⟨row, rfl⟩
  | error e =>
    cases e
    unfold convert_item_to_csv_row at hC
    simp only [pyGet_obj, exOkBind, hok, hdk] at hC
    rw [hok] at hu
    rw [hu] at hC
    simp only [exOkBind] at hC
    rw [husr] at hC
    simp only [exOkBind] at hC
    rw [hpwd] at hC
    simp only [exOkBind] at hC
    rw [hotp] at hC
    simp only [exOkBind] at hC
    rw [hns] at hC
    simp only [exOkBind] at hC
    simp at hC

/-! ## The claims -/

/-- C1 (amended): a Notes block whose trigger value is falsy contributes
nothing: when the raw `notesPlain` is falsy, the tag list is falsy, no
other login field and no renderable section field was collected, the URL
list has at most one entry and the password history is falsy, the final
Notes string is empty.  (As the counterexample shows, a whitespace-only
`notesPlain` is truthy: it contributes an empty block and a delimiter,
so the trigger is truthiness of the raw value, not non-emptiness of the
stripped text.) -/
theorem c1_empty_triggers_empty_notes (d o : JValue)
    (hd : d.isObj = true) (ho : o.isObj = true)
    (h1 : truthy (objGetD d "notesPlain" (.str "")) = false)
    (h2 : truthy (objGetD o "tags" (.arr [])) = false)
    (h3 : otherFieldsOf (objGetD d "loginFields" (.arr [])) = .ok [])
    (h4 : sectionFieldsOf (objGetD d "sections" (.arr [])) = .ok [])
    (h5 : pyLen (objGetD o "urls" (.arr [])) = .ok 0
      ∨ pyLen (objGetD o "urls" (.arr [])) = .ok 1)
    (h6 : truthy (objGetD d "passwordHistory" (.arr [])) = false) :
    build_notes d o = .ok "" := by
  obtain ⟨kvs, rfl⟩ := isObj_exists hd
  obtain ⟨okvs, rfl⟩ := isObj_exists ho
  simp only [objGetD] at h1 h2 h3 h4 h5 h6
  have hb1 : notesBlock1 ((objLookup kvs "notesPlain").getD (.str "")) = .ok [] := by
    simp [notesBlock1, h1]
  have hb2 : ∀ p, notesBlock2 ((objLookup okvs "tags").getD (.arr [])) p = .ok p := by
    intro p
    simp [notesBlock2, h2]
  have hb6 : ∀ p, notesBlock6 ((objLookup kvs "passwordHistory").getD (.arr [])) p = .ok p := by
    intro p
    simp [notesBlock6, h6]
  rcases h5 with h5 | h5
  · have hb5 : ∀ p, notesBlock5 ((objLookup okvs "urls").getD (.arr [])) 0 p = .ok p := by
      intro p
      simp [notesBlock5]
    unfold build_notes
    simp only [pyGet_obj, exOkBind, hb1, hb2, h3, h4, h5, hb5, hb6, List.isEmpty_nil,
      Bool.not_true, Bool.false_eq_true, if_false]
    rfl
  · have hb5 : ∀ p, notesBlock5 ((objLookup okvs "urls").getD (.arr [])) 1 p = .ok p := by
      intro p
      simp [notesBlock5]
    unfold build_notes
    simp only [pyGet_obj, exOkBind, hb1, hb2, h3, h4, h5, hb5, hb6, List.isEmpty_nil,
      Bool.not_true, Bool.false_eq_true, if_false]
    rfl

/-- Witness for C1 at the empty item: every trigger is empty and the
Notes value is the empty string. -/
theorem c1_witness : build_notes (.obj []) (.obj []) = .ok "" :=
  c1_empty_triggers_empty_notes (.obj []) (.obj []) rfl rfl rfl rfl rfl rfl
    (Or.inl rfl) rfl

/-- C1 counterexample: a whitespace-only `notesPlain` (claimed to
contribute nothing) is truthy, so its stripped empty block is appended
and the delimiter leaks into the Notes string: the result has a leading
`\n---\n` instead of being the single non-empty block. -/
theorem c1_counterexample :
    build_notes (.obj [("notesPlain", .str " ")]) (.obj [("tags", .arr [.str "a"])])
      = .ok ("\n---\n標籤: a")
    ∧ ("\n---\n標籤: a" : String) ≠ "標籤: a" :=
  ⟨rfl, by decide⟩

/-- C2 (amended): the OTP scan is the first match over the fields of all
sections flattened in source order, where a `TOTP_`-prefixed field with a
dict value contributes its `totp` entry only when truthy (empty
candidates are skipped), a plain-string value is returned immediately
even when empty, and other value shapes are skipped; `None` is returned
only when the scan finds nothing. -/
theorem c2_otp_scan_first_match (ss : List (List (String × JValue))) :
    extract_otp_auth (encodeSections ss) = .ok ((otpSpec ss).getD .null) := by
  simp [extract_otp_auth, encodeSections, pyIter, otpSectionLoop_encode]

/-- C2 counterexample: an empty plain-string TOTP value is returned
immediately, so the scan does not continue to the later non-empty
candidate `SEED` as the claim requires. -/
theorem c2_counterexample :
    extract_otp_auth (.arr [.obj [("fields", .arr [
        .obj [("id", .str "TOTP_1"), ("value", .str "")],
        .obj [("id", .str "TOTP_2"), ("value", .str "SEED")]])]])
      = .ok (.str "")
    ∧ JValue.str "" ≠ JValue.str "SEED" :=
  ⟨rfl, by simp⟩

/-- C3 (amended): the formatter returns without raising on every value
whose postal-address sub-fields are strings whenever truthy (`fmtOk`),
and every non-empty string output is a fixed point of the formatter;
totality on arbitrary values and idempotence for empty-string outputs
fail, as the counterexample shows. -/
theorem c3_total_and_idempotent_amended (v : JValue) :
    (fmtOk v = true → ∃ r, format_field_value v = .ok r)
    ∧ (∀ s : String, format_field_value v = .ok (.str s) → s ≠ "" →
        format_field_value (.str s) = .ok (.str s)) := by
  constructor
  · exact format_field_value_ok v
  · intro s _ hne
    simp [format_field_value, hne]

/-- Witness for C3 at a concealed field: the formatter succeeds and its
non-empty string output is a fixed point. -/
theorem c3_witness :
    (∃ r, format_field_value (.obj [("concealed", .str "x")]) = .ok r)
    ∧ format_field_value (.str "x") = .ok (.str "x") :=
  ⟨(c3_total_and_idempotent_amended (.obj [("concealed", .str "x")])).1 rfl,
   (c3_total_and_idempotent_amended (.obj [("concealed", .str "x")])).2 "x" rfl
     (by decide)⟩

/-- C3 counterexample: a non-string street makes the address join raise
(the formatter is not total), and a concealed empty string is returned as
`""` whose re-formatting yields absent (the formatter is not idempotent
on its non-absent output). -/
theorem c3_counterexample :
    format_field_value (.obj [("address", .obj [("street", .num 5)])]) = .error ()
    ∧ format_field_value (.obj [("concealed", .str "")]) = .ok (.str "")
    ∧ format_field_value (.str "") = .ok .null :=
  ⟨rfl, rfl, rfl⟩

/-- C4 (amended): converting an item never raises provided the item is
well-typed — objects where the code expects dicts, strings for
`notesPlain`, tags, field ids and truthy address sub-fields, and lists of
objects for `loginFields`, `sections` and `urls`; a type-mismatched item
(e.g. a numeric `notesPlain`) raises and aborts the batch, as the
counterexample shows. -/
theorem c4_welltyped_never_raises (item : JValue) (h : wellTyped item = true) :
    ∃ row, convert_item_to_csv_row item = .ok row :=
  convert_item_ok item h

/-- Witness for C4 at the empty item. -/
theorem c4_witness : ∃ row, convert_item_to_csv_row (.obj []) = .ok row :=
  c4_welltyped_never_raises (.obj []) rfl

/-- C4 counterexample: an item whose `notesPlain` is the number 5 makes
`notes_plain.strip()` raise, so the item conversion errors instead of
degrading gracefully. -/
theorem c4_counterexample :
    convert_item_to_csv_row (.obj [("details", .obj [("notesPlain", .num 5)])]) = .error () :=
  rfl

/-- C5 (amended): an archived item yields no row when archived inclusion
is off, and exactly its one row when inclusion is on, provided its
conversion succeeds (a raising item aborts instead, as the
counterexample shows); items whose state is not `archived` are converted
identically under both flags. -/
theorem c5_archived_filter (item : JValue) (r : CsvRow) (s : JValue) :
    (pyGet item "state" (.str "active") = .ok (.str "archived") →
      convert_1pux_to_csv (mkDoc item) false = .ok []
      ∧ (convert_item_to_csv_row item = .ok r →
          convert_1pux_to_csv (mkDoc item) true = .ok [r]))
    ∧ (pyGet item "state" (.str "active") = .ok s → isStrEq s "archived" = false →
        convert_1pux_to_csv (mkDoc item) false = convert_1pux_to_csv (mkDoc item) true) := by
  constructor
  · intro hs
    constructor
    · rw [convert_mkDoc, hs]
      simp [isStrEq]
    · intro hc
      rw [convert_mkDoc, hs]
      simp [isStrEq, hc]
  · intro hs hne
    rw [convert_mkDoc, convert_mkDoc, hs]
    simp [hne]

/-- Witness for C5: an archived item is dropped without the flag and
yields its single row with it; an unarchived item is unaffected. -/
theorem c5_witness :
    (convert_1pux_to_csv (mkDoc (.obj [("state", .str "archived")])) false = .ok []
      ∧ convert_1pux_to_csv (mkDoc (.obj [("state", .str "archived")])) true
          = .ok [{ title := .str "", url := .str "", username := .str "",
                   password := .str "", notes := "", otpauth := .str "" }])
    ∧ convert_1pux_to_csv (mkDoc (.obj [])) false = convert_1pux_to_csv (mkDoc (.obj [])) true := by
  refine ⟨⟨?_, ?_⟩, ?_⟩
  · exact ((c5_archived_filter (.obj [("state", .str "archived")])
      { title := .str "", url := .str "", username := .str "", password := .str "",
        notes := "", otpauth := .str "" } (.str "archived")).1 rfl).1
  · exact ((c5_archived_filter (.obj [("state", .str "archived")])
      { title := .str "", url := .str "", username := .str "", password := .str "",
        notes := "", otpauth := .str "" } (.str "archived")).1 rfl).2 rfl
  · exact (c5_archived_filter (.obj [])
      { title := .str "", url := .str "", username := .str "", password := .str "",
        notes := "", otpauth := .str "" } (.str "active")).2 rfl rfl

/-- C5 counterexample: an archived item whose conversion raises produces
an aborted run (no row at all) when inclusion is requested, not exactly
one row. -/
theorem c5_counterexample :
    convert_1pux_to_csv (mkDoc (.obj [("state", .str "archived"),
        ("details", .obj [("notesPlain", .num 5)])])) true = .error ()
    ∧ convert_1pux_to_csv (mkDoc (.obj [("state", .str "archived"),
        ("details", .obj [("notesPlain", .num 5)])])) false = .ok [] :=
  ⟨rfl, rfl⟩

/-- C6: the emitted rows are exactly the included items of the source
traversal, converted in order — one row per included item, none
duplicated — so the row count equals the included-item count and is at
most the count of items traversed. -/
theorem c6_rows_follow_traversal (data : JValue) (b : Bool) :
    convert_1pux_to_csv data b = (do
      let items ← includedItems data b
      exMapM convert_item_to_csv_row items)
    ∧ (∀ items rows, includedItems data b = .ok items →
        convert_1pux_to_csv data b = .ok rows → rows.length = items.length)
    ∧ (∀ items allItems, includedItems data b = .ok items →
        includedItems data true = .ok allItems → items.length ≤ allItems.length) := by
  refine ⟨convert_eq_includedItems data b, ?_, ?_⟩
  · intro items rows hi hc
    rw [convert_eq_includedItems data b, hi] at hc
    simp only [exOkBind] at hc
    exact exMapM_length _ items rows hc
  · intro items allItems hi hall
    obtain ⟨all2, h1, h2⟩ := includedItems_le data b items hi
    rw [hall] at h1
    obtain rfl : allItems = all2 := by injection h1
    exact h2

/-- Witness for C6 on a one-item document. -/
theorem c6_witness :
    ([{ title := .str "", url := .str "", username := .str "", password := .str "",
        notes := "", otpauth := .str "" }] : List CsvRow).length
      = ([JValue.obj []] : List JValue).length
    ∧ ([JValue.obj []] : List JValue).length ≤ ([JValue.obj []] : List JValue).length :=
  ⟨(c6_rows_follow_traversal (mkDoc (.obj [])) false).2.1 [.obj []]
      [{ title := .str "", url := .str "", username := .str "", password := .str "",
         notes := "", otpauth := .str "" }] rfl rfl,
   (c6_rows_follow_traversal (mkDoc (.obj [])) false).2.2 [.obj []] [.obj []] rfl rfl⟩

/-- C7: deleting every section field whose id starts with `TOTP_` changes
neither the collected section-field bullets nor the Notes string of any
item — those fields are never rendered into Notes and surface only
through the OTPAuth extraction. -/
theorem c7_totp_excluded_from_notes :
    (∀ sections, sectionFieldsOf (stripTotpFields sections) = sectionFieldsOf sections)
    ∧ (∀ d o, build_notes (withKey d "sections"
        (stripTotpFields (objGetD d "sections" (.arr [])))) o = build_notes d o) :=
  ⟨sectionFieldsOf_strip, build_notes_strip⟩

/-- C8: a postal address with string sub-fields formats exactly as the
spec composes it — street segment, then city-state-zip joined with a
comma omitting empty members, then country, all joined with a comma,
absent when nothing is non-empty — and the concrete address of
Scenario 3 formats to the expected string. -/
theorem c8_address_composition :
    (∀ street city state zipCode country : String,
      format_field_value (addressVal street city state zipCode country)
        = .ok (addressSpec street city state zipCode country))
    ∧ format_field_value (addressVal "1 Main St" "Springfield" "IL" "62704" "USA")
        = .ok (.str "1 Main St, Springfield, IL, 62704, USA") := by
  constructor
  · intro street city state zipCode country
    simp [format_field_value, addressVal, hasKey, objLookup, formatAddress_strs]
  · rfl

/-- C9 (amended): on an unrecognized shape (none of the five structural
keys present) the result is `str()` of the value of the first key among
`value`, `text`, `name`, `label` that is present with a TRUTHY value —
a present key holding a falsy value is skipped and the scan continues —
and absent when no key qualifies. -/
theorem c9_generic_key_probe (kvs : List (String × JValue))
    (h0 : truthy (.obj kvs) = true)
    (h1 : hasKey kvs "concealed" = false) (h2 : hasKey kvs "string" = false)
    (h3 : hasKey kvs "ssoLogin" = false) (h4 : hasKey kvs "menu" = false)
    (h5 : hasKey kvs "address" = false) :
    format_field_value (.obj kvs) = .ok (genericSpec kvs) := by
  simp [format_field_value, h0, h1, h2, h3, h4, h5, genericKeyLoop_spec, genericSpec]

/-- Witness for C9 at a one-key object. -/
theorem c9_witness :
    format_field_value (.obj [("text", .str "hi")])
      = .ok (genericSpec [("text", .str "hi")])
    ∧ genericSpec [("text", .str "hi")] = .str "hi" :=
  ⟨c9_generic_key_probe [("text", .str "hi")] rfl rfl rfl rfl rfl rfl, rfl⟩

/-- C9 counterexample: with `value` present but empty and `text` present
as `hello`, the formatter returns `hello` — the first PRESENT key does
not win as the claim states; the first present-and-truthy key does. -/
theorem c9_counterexample :
    format_field_value (.obj [("value", .str ""), ("text", .str "hello")])
      = .ok (.str "hello")
    ∧ (Except.ok (JValue.str "hello") : Except Unit JValue) ≠ .ok (.str "") :=
  ⟨rfl, by simp⟩

/-- C10 (amended): an item without a `state` key is treated as active —
it is converted under both flag settings, yielding its row exactly when
the conversion succeeds (a raising item aborts instead, as the
counterexample shows); the filter excludes only items whose state is
exactly the string `archived`. -/
theorem c10_missing_state_is_active (item : JValue) (b : Bool) :
    (∀ kvs, item = .obj kvs → objLookup kvs "state" = none →
      convert_1pux_to_csv (mkDoc item) b
        = (convert_item_to_csv_row item).map (fun r => [r]))
    ∧ (∀ s, pyGet item "state" (.str "active") = .ok s → isStrEq s "archived" = false →
      convert_1pux_to_csv (mkDoc item) b
        = (convert_item_to_csv_row item).map (fun r => [r])) := by
  constructor
  · intro kvs hk hnone
    subst hk
    have hs : pyGet (.obj kvs) "state" (.str "active") = .ok (.str "active") := by
      simp [pyGet, hnone]
    rw [convert_mkDoc, hs]
    simp only [isStrEq]
    cases hc : convert_item_to_csv_row (.obj kvs) with
    | error e => cases e; simp [hc]
    | ok row => simp [hc]
  · intro s hs hne
    rw [convert_mkDoc, hs]
    simp only [exOkBind, hne, Bool.and_false]
    cases hc : convert_item_to_csv_row item with
    | error e => cases e; simp [hc]
    | ok row => simp [hc]

/-- Witness for C10 at the empty item (no `state` key). -/
theorem c10_witness :
    convert_1pux_to_csv (mkDoc (.obj [])) false
      = (convert_item_to_csv_row (.obj [])).map (fun r => [r]) :=
  (c10_missing_state_is_active (.obj []) false).1 [] rfl rfl

/-- C10 counterexample: an item without a `state` key whose conversion
raises emits no row under either flag — the run aborts — contradicting
the claim that a row is always emitted. -/
theorem c10_counterexample :
    convert_1pux_to_csv (mkDoc (.obj [("details", .obj [("notesPlain", .num 5)])])) false
      = .error ()
    ∧ convert_1pux_to_csv (mkDoc (.obj [("details", .obj [("notesPlain", .num 5)])])) true
      = .error () :=
  ⟨rfl, rfl⟩
